import Mathlib

/- Verification development for the multi-backend tile access layer of
   apache/incubator-sdap-nexus, file data-access/nexustiles/nexustiles.py
   (class NexusTileService).  Python dictionaries keyed by dataset id are
   modelled as association lists; the shared dict objects stored in
   NexusTileService.backends are modelled through an explicit heap of
   bindings addressed by natural numbers, so that aliasing (two keys bound
   to the same dict object) is observable.  Machine floats that are only
   ever compared for order (latitudes, longitudes, times, values) are
   modelled as integers. -/

deriving instance DecidableEq for Except

namespace Sdap

/- Keys of NexusTileService.backends: Python None or a dataset name. -/
abbrev DKey := Option String

/- Backend handles.  NexusprotoTileService and ZarrBackend are external
   collaborators (their modules are not part of the access layer); only
   their identity and configuration are relevant here.  The config string
   carries the raw first element of the solr config field; json decoding
   of that blob is treated as opaque. -/
inductive Backend where
  | nexusproto
  | zarr (config : String)
deriving Repr, DecidableEq

/- One entry of NexusTileService.backends: in Python a dict
   {"backend": ..., "up": bool}. -/
structure Binding where
  backend : Backend
  up : Bool
deriving Repr, DecidableEq

/- The backend registry.  heap models Python object identity: map entries
   hold addresses into heap, and several keys may share one address
   (backends[None] is aliased by the key "__nexusproto__" and by every
   nexusproto-typed dataset). -/
structure RegState where
  heap : List Binding
  map : List (DKey × Nat)
deriving Repr, DecidableEq

/- Errors raised by the modelled code paths.  datasetNotFound models
   DatasetNotFoundException; backendUnavailable models the
   NexusProcessingException raised in __get_backend; missingData models
   the bare Exception raised in fetch_data_for_tiles; keyError, indexError
   and valueError model the corresponding Python exceptions; solrError
   models a pysolr failure of the catalog query.  invariantViolation is a
   model-only constructor for a dangling heap address, unreachable from
   well-formed states. -/
inductive NexusError where
  | datasetNotFound (d : DKey)
  | backendUnavailable (d : DKey)
  | missingData
  | keyError (k : String)
  | keyErrorNoneKey
  | indexError
  | valueError (s : String)
  | solrError
  | invariantViolation
deriving Repr, DecidableEq

/- Registry access events, used to express which reads and writes of
   NexusTileService.backends happen while DS_LOCK is held. -/
inductive RegAccess where
  | read (k : DKey)
  | write (k : DKey)
deriving Repr, DecidableEq

structure Ev where
  acc : RegAccess
  locked : Bool
deriving Repr, DecidableEq

/- NexusTileService.__get_backend (nexustiles.py lines 121-136).  The
   static method reads NexusTileService.backends without acquiring DS_LOCK
   (no caller of __get_backend holds it), hence every emitted event
   carries locked = false.  The result is (raised-or-returned value,
   registry state after the call, registry access events). -/
def getBackendT (tc : Backend → Bool) (reg : RegState) (d : DKey) :
    Except NexusError Backend × RegState × List Ev :=
  match List.lookup d reg.map with
  | none => (.error (.datasetNotFound d), reg, [⟨.read d, false⟩])
  | some a =>
    match reg.heap[a]? with
    | none => (.error .invariantViolation, reg, [⟨.read d, false⟩, ⟨.read d, false⟩])
    | some b =>
      if b.up then
        (.ok b.backend, reg, [⟨.read d, false⟩, ⟨.read d, false⟩])
      else if tc b.backend then
        (.ok b.backend,
         { reg with heap := reg.heap.set a { b with up := true } },
         [⟨.read d, false⟩, ⟨.read d, false⟩, ⟨.write d, false⟩])
      else
        (.error (.backendUnavailable d), reg, [⟨.read d, false⟩, ⟨.read d, false⟩])

def getBackend (tc : Backend → Bool) (reg : RegState) (d : DKey) : Except NexusError Backend :=
  (getBackendT tc reg d).1

def getBackendState (tc : Backend → Bool) (reg : RegState) (d : DKey) : RegState :=
  (getBackendT tc reg d).2.1

def resolveEvents (tc : Backend → Bool) (reg : RegState) (d : DKey) : List Ev :=
  (getBackendT tc reg d).2.2

/- One dataset document of the solr catalog query response
   (_update_datasets, lines 157-178).  store_type_s defaults to
   "nexusproto" via dict.get; config is the multivalued solr field read as
   dataset["config"][0]. -/
structure CatalogDoc where
  dataset_s : String
  store_type_s : Option String := none
  config : Option (List String) := none
deriving Repr, DecidableEq

def storeTypeOf (doc : CatalogDoc) : String :=
  doc.store_type_s.getD "nexusproto"

/- The per-document body of the first loop of _update_datasets
   (lines 159-178): skip datasets already bound; bind nexusproto datasets
   to the very dict object stored under the None key (KeyError if that key
   is gone); construct a fresh zarr binding from dataset["config"][0]
   (KeyError if the field is missing, IndexError if it is empty); log and
   skip unsupported store types. -/
def updateInsert (reg : RegState) (doc : CatalogDoc) : Except NexusError RegState :=
  if (List.lookup (some doc.dataset_s) reg.map).isSome then
    pure reg
  else
    let st := storeTypeOf doc
    if st = "nexus_proto" ∨ st = "nexusproto" then
      match List.lookup none reg.map with
      | none => .error .keyErrorNoneKey
      | some a => pure { reg with map := (some doc.dataset_s, a) :: reg.map }
    else if st = "zarr" then
      match doc.config with
      | none => .error (.keyError "config")
      | some [] => .error .indexError
      | some (c :: _) =>
        pure { reg with
               heap := reg.heap ++ [{ backend := .zarr c, up := true }],
               map := (some doc.dataset_s, reg.heap.length) :: reg.map }
    else
      pure reg

def updateFold (reg : RegState) : List CatalogDoc → Except NexusError RegState
  | [] => pure reg
  | doc :: rest => do
    let reg1 ← updateInsert reg doc
    updateFold reg1 rest

def presentOf (docs : List CatalogDoc) : List String :=
  docs.map (·.dataset_s)

def keepKey (present : List String) : DKey → Bool
  | some s => present.contains s
  | none => false

/- _update_datasets (lines 157-184) after a successful catalog query:
   the insertion loop over the response docs, then
   removed_datasets = set(backends.keys()).difference(present_datasets)
   and deletion of every key in that difference. -/
def updateDatasets (reg : RegState) (docs : List CatalogDoc) : Except NexusError RegState := do
  let reg1 ← updateFold reg docs
  pure { reg1 with map := reg1.map.filter (fun kv => keepKey (presentOf docs) kv.1) }

/- Registry access events of updateInsert, mirroring its branches: the
   membership test is a read of the dataset key, the nexusproto branch
   reads the None key, and each performed insertion is a write. -/
def updateInsertEvs (reg : RegState) (doc : CatalogDoc) (locked : Bool) : List Ev :=
  if (List.lookup (some doc.dataset_s) reg.map).isSome then
    [⟨.read (some doc.dataset_s), locked⟩]
  else
    let st := storeTypeOf doc
    if st = "nexus_proto" ∨ st = "nexusproto" then
      match List.lookup none reg.map with
      | none => [⟨.read (some doc.dataset_s), locked⟩, ⟨.read none, locked⟩]
      | some _ => [⟨.read (some doc.dataset_s), locked⟩, ⟨.read none, locked⟩,
                   ⟨.write (some doc.dataset_s), locked⟩]
    else if st = "zarr" then
      match doc.config with
      | none => [⟨.read (some doc.dataset_s), locked⟩]
      | some [] => [⟨.read (some doc.dataset_s), locked⟩]
      | some (_ :: _) => [⟨.read (some doc.dataset_s), locked⟩,
                          ⟨.write (some doc.dataset_s), locked⟩]
    else
      [⟨.read (some doc.dataset_s), locked⟩]

def updatePhase1Events (reg : RegState) (locked : Bool) : List CatalogDoc → List Ev
  | [] => []
  | doc :: rest =>
    updateInsertEvs reg doc locked ++
    (match updateInsert reg doc with
     | .error _ => []
     | .ok reg1 => updatePhase1Events reg1 locked rest)

def updateDatasetsEvents (reg : RegState) (docs : List CatalogDoc) (locked : Bool) : List Ev :=
  updatePhase1Events reg locked docs ++
  (match updateFold reg docs with
   | .error _ => []
   | .ok reg1 =>
     (reg1.map.filter (fun kv => !(keepKey (presentOf docs) kv.1))).map
       (fun kv => ⟨.write kv.1, locked⟩))

/- The background refresher thread body (lines 111-117) runs
   "with DS_LOCK: self._update_datasets()"; hence every registry event of
   a refresh cycle is emitted with the lock held. -/
def refresherCycleEvents (reg : RegState) (docs : List CatalogDoc) : List Ev :=
  updateDatasetsEvents reg docs true

/- Outcome of running the refresher loop against a finite stream of
   catalog query results.  The loop body (lines 112-115) has no exception
   handler, so any raise propagates and terminates the thread; crashed k e
   records that k full cycles completed before the uncaught exception e. -/
inductive RefresherOutcome where
  | alive (reg : RegState)
  | crashed (cyclesDone : Nat) (e : NexusError)
deriving Repr, DecidableEq

def RefresherOutcome.isAlive : RefresherOutcome → Bool
  | .alive _ => true
  | .crashed _ _ => false

/- Each element of the stream is the outcome of the solr catalog query of
   one cycle (the query runs inside _update_datasets, lines 139-155, and
   may raise); a successful query feeds updateDatasets. -/
def refresherRun (reg : RegState) :
    List (Except NexusError (List CatalogDoc)) → RefresherOutcome
  | [] => .alive reg
  | q :: qs =>
    match q with
    | .error e => .crashed 0 e
    | .ok docs =>
      match updateDatasets reg docs with
      | .error e => .crashed 0 e
      | .ok reg1 =>
        match refresherRun reg1 qs with
        | .alive r => .alive r
        | .crashed k e => .crashed (k + 1) e

/- The registry as seeded by NexusTileService.__init__ (lines 108-109):
   one binding object, reachable under the None key and under the alias
   key "__nexusproto__". -/
def seededState : RegState :=
  { heap := [{ backend := .nexusproto, up := true }],
    map := [(none, 0), (some "__nexusproto__", 0)] }

/- Well-formedness of a registry: every mapped address points into the
   heap. -/
def WFReg (reg : RegState) : Prop :=
  ∀ kv ∈ reg.map, kv.2 < reg.heap.length

instance (reg : RegState) : Decidable (WFReg reg) :=
  List.decidableBAll _ reg.map

/- ------------------------------------------------------------------ -/
/- Tile model (model/nexusmodel.py is outside the provided sources).
   Modelled from the spec: a Tile carries identifier, owning dataset,
   dataset internal id, granule, bounding box, time range, section
   specifier, summary statistics, variable descriptors, and a sample
   payload (latitude, longitude, time, value arrays plus per-sample
   metadata and a multi-variable flag); all fields start unset and are
   populated independently. -/

structure BBox where
  min_lat : Int
  max_lat : Int
  min_lon : Int
  max_lon : Int
deriving Repr, DecidableEq

structure TileStats where
  tile_min : Int
  tile_max : Int
  tile_mean : Int
  tile_count : Int
deriving Repr, DecidableEq

structure TileVariable where
  variable_name : Option String
  standard_name : Option String
deriving Repr, DecidableEq

structure SolrDate where
  year : Nat
  month : Nat
  day : Nat
  hour : Nat
  minute : Nat
  second : Nat
deriving Repr, DecidableEq

structure Tile where
  tile_id : Option String := none
  dataset : Option String := none
  dataset_id : Option String := none
  granule : Option String := none
  bbox : Option BBox := none
  min_time : Option SolrDate := none
  max_time : Option SolrDate := none
  section_spec : Option String := none
  tile_stats : Option TileStats := none
  tile_variables : Option (List TileVariable) := none
  latitudes : Option (List Int) := none
  longitudes : Option (List Int) := none
  times : Option (List Int) := none
  tdata : Option (List Int) := none
  meta_data : Option String := none
  is_multi : Option Bool := none
deriving Repr, DecidableEq

def isPopulated (t : Tile) : Bool :=
  t.latitudes.isSome && t.longitudes.isSome && t.times.isSome &&
  t.tdata.isSome && t.meta_data.isSome && t.is_multi.isSome

/- ------------------------------------------------------------------ -/
/- Character-level helpers for the solr document decoding done by
   _metadata_store_docs_to_tiles. -/

def strContains (s : String) (c : Char) : Bool :=
  s.toList.contains c

def trimChars (l : List Char) : List Char :=
  ((l.dropWhile (· = ' ')).reverse.dropWhile (· = ' ')).reverse

def splitOnChar (c : Char) : List Char → List (List Char)
  | [] => [[]]
  | x :: xs =>
    let r := splitOnChar c xs
    if x = c then [] :: r
    else
      match r with
      | h :: t => (x :: h) :: t
      | [] => [[x]]

/- One item of a flat json array: null, or a plain quoted string.  This
   models the json shapes the ingester writes into tile_var_name_s and
   tile_standard_name_s (flat arrays of plain strings and nulls). -/
def parseJsonItem (l : List Char) : Option (Option String) :=
  let t := trimChars l
  if t = ['n', 'u', 'l', 'l'] then some none
  else
    match t with
    | '"' :: rest =>
      match rest.reverse with
      | '"' :: mid => if (mid.reverse).contains '"' then none else some (some ⟨mid.reverse⟩)
      | _ => none
    | _ => none

/- Model of json.loads restricted to flat arrays of strings and nulls. -/
def jsonLoadsList (s : String) : Option (List (Option String)) :=
  let t := trimChars s.toList
  match t with
  | '[' :: rest =>
    match rest.reverse with
    | ']' :: midRev =>
      let mid := midRev.reverse
      if trimChars mid = [] then some []
      else (splitOnChar ',' mid).mapM parseJsonItem
    | _ => none
  | _ => none

def digitVal (c : Char) : Option Nat :=
  if c.isDigit then some (c.toNat - 48) else none

def twoDigits (a b : Char) : Option Nat := do
  let x ← digitVal a
  let y ← digitVal b
  pure (x * 10 + y)

def fourDigits (a b c d : Char) : Option Nat := do
  let x ← twoDigits a b
  let y ← twoDigits c d
  pure (x * 100 + y)

/- Gregorian leap-year rule, as used by the datetime module. -/
def isLeapYear (y : Nat) : Bool :=
  (y % 4 == 0 && !(y % 100 == 0)) || y % 400 == 0

def daysInMonth (y m : Nat) : Nat :=
  if m = 2 then (if isLeapYear y then 29 else 28)
  else if m = 4 ∨ m = 6 ∨ m = 9 ∨ m = 11 then 30
  else 31

/- Model of datetime.strptime(s, "%Y-%m-%dT%H:%M:%SZ"): accepts exactly
   the zero-padded solr date shape denoting a calendar-valid instant
   (year 0001-9999, month in range, day valid for that month and year
   under the Gregorian leap rule, time fields in range, as the datetime
   constructor enforces), and fails (the Python call raises ValueError)
   on anything else, including calendar-invalid dates such as a February
   30th or a year 0000. -/
def parseSolrDate (s : String) : Option SolrDate :=
  match s.toList with
  | [y1, y2, y3, y4, c1, o1, o2, c2, a1, a2, c3, h1, h2, c4, i1, i2, c5, e1, e2, c6] =>
    if c1 = '-' ∧ c2 = '-' ∧ c3 = 'T' ∧ c4 = ':' ∧ c5 = ':' ∧ c6 = 'Z' then
      match fourDigits y1 y2 y3 y4, twoDigits o1 o2, twoDigits a1 a2,
            twoDigits h1 h2, twoDigits i1 i2, twoDigits e1 e2 with
      | some y, some mo, some dd, some hh, some mi, some ss =>
        if 1 ≤ y ∧ 1 ≤ mo ∧ mo ≤ 12 ∧ 1 ≤ dd ∧ dd ≤ daysInMonth y mo ∧
           hh ≤ 23 ∧ mi ≤ 59 ∧ ss ≤ 59 then
          some { year := y, month := mo, day := dd, hour := hh, minute := mi, second := ss }
        else none
      | _, _, _, _, _, _ => none
    else none
  | _ => none

/- ------------------------------------------------------------------ -/
/- Metadata-index documents, as consumed by _metadata_store_docs_to_tiles
   (lines 426-537).  Fields are typed according to the solr schema; a
   missing dict key is none.  var_standard_names models the dynamically
   keyed entries "{var_name}.tile_standard_name_s" read via dict.get. -/

inductive NumOrList where
  | num (n : Int)
  | lst (l : List Int)
deriving Repr, DecidableEq

structure StoreDoc where
  id : Option String := none
  tile_min_lat : Option NumOrList := none
  tile_max_lat : Option NumOrList := none
  tile_min_lon : Option NumOrList := none
  tile_max_lon : Option NumOrList := none
  dataset_s : Option String := none
  dataset_id_s : Option String := none
  granule_s : Option String := none
  tile_min_time_dt : Option String := none
  tile_max_time_dt : Option String := none
  sectionSpec_s : Option String := none
  tile_min_val_d : Option Int := none
  tile_max_val_d : Option Int := none
  tile_avg_val_d : Option Int := none
  tile_count_i : Option Int := none
  tile_var_name_s : Option String := none
  tile_standard_name_s : Option String := none
  tile_var_name_ss : Option (List String) := none
  var_standard_names : List (String × String) := []
deriving Repr, DecidableEq

/- The value[0] extraction applied when a bounding-box field is
   list-valued (isinstance(v, list) branches, lines 442-449); an empty
   list raises IndexError, which the surrounding "except KeyError" does
   not catch. -/
def firstOf : NumOrList → Except NexusError Int
  | .num n => .ok n
  | .lst [] => .error .indexError
  | .lst (n :: _) => .ok n

/- The bounding-box block (lines 436-453): all four keys must be present
   (a KeyError is caught and leaves bbox unset); list-valued fields
   contribute their first element; BBox is built as
   BBox(min_lat, max_lat, min_lon, max_lon). -/
def bboxOf (doc : StoreDoc) : Except NexusError (Option BBox) :=
  match doc.tile_min_lat, doc.tile_min_lon, doc.tile_max_lat, doc.tile_max_lon with
  | some mnla, some mnlo, some mxla, some mxlo => do
    let a ← firstOf mnla
    let b ← firstOf mnlo
    let c ← firstOf mxla
    let d ← firstOf mxlo
    .ok (some { min_lat := a, max_lat := c, min_lon := b, max_lon := d })
  | _, _, _, _ => .ok none

/- The tile_min_time_dt / tile_max_time_dt blocks (lines 470-480): a
   missing key is caught, a present but malformed value raises ValueError
   through the except KeyError handler. -/
def timeOf (v : Option String) : Except NexusError (Option SolrDate) :=
  match v with
  | none => .ok none
  | some s =>
    match parseSolrDate s with
    | none => .error (.valueError s)
    | some dt => .ok (some dt)

/- The TileStats block (lines 487-493): needs all four keys, otherwise the
   KeyError is caught and stats stay unset. -/
def statsOf (doc : StoreDoc) : Option TileStats :=
  match doc.tile_min_val_d, doc.tile_max_val_d, doc.tile_avg_val_d, doc.tile_count_i with
  | some a, some b, some c, some d =>
    some { tile_min := a, tile_max := b, tile_mean := c, tile_count := d }
  | _, _, _, _ => none

/- The backwards-compatible variables block (lines 495-522): reading
   tile_var_name_s (KeyError caught); json.loads applied when the value
   contains a bracket (a decode failure raises through the handler);
   tile_standard_name_s read via dict.get with a json.dumps([None]*n)
   default, which reparses to n nulls; names and standard names zipped
   (zip truncates to the shorter list). -/
def varNamesOf (s : String) : Except NexusError (List (Option String)) :=
  if strContains s '[' then
    match jsonLoadsList s with
    | none => .error (.valueError s)
    | some l => .ok l
  else
    .ok [some s]

def standardNamesOf (doc : StoreDoc) (n : Nat) : Except NexusError (List (Option String)) :=
  match doc.tile_standard_name_s with
  | none => .ok (List.replicate n (none : Option String))
  | some sn =>
    if strContains sn '[' then
      match jsonLoadsList sn with
      | none => .error (.valueError sn)
      | some l => .ok l
    else
      .ok [some sn]

def varsOf (doc : StoreDoc) : Except NexusError (Option (List TileVariable)) :=
  match doc.tile_var_name_s with
  | none => .ok none
  | some s => do
    let varNames ← varNamesOf s
    let standardNames ← standardNamesOf doc varNames.length
    .ok (some (List.zipWith (fun v st => TileVariable.mk v st) varNames standardNames))

/- The tile_var_name_ss override block (lines 525-533): when present it
   replaces the variables list, taking each standard name from the
   dynamically keyed doc entry (dict.get, so absence gives null). -/
def varsOverride (doc : StoreDoc) (cur : Option (List TileVariable)) : Option (List TileVariable) :=
  match doc.tile_var_name_ss with
  | none => cur
  | some names =>
    some (names.map (fun v => TileVariable.mk (some v) (List.lookup v doc.var_standard_names)))

/- One document to one Tile (_metadata_store_docs_to_tiles loop body,
   lines 429-535); every field is extracted independently, and the
   stages appear in source order for error precedence. -/
def docToTile (doc : StoreDoc) : Except NexusError Tile := do
  let bb ← bboxOf doc
  let mnT ← timeOf doc.tile_min_time_dt
  let mxT ← timeOf doc.tile_max_time_dt
  let vars1 ← varsOf doc
  .ok { tile_id := doc.id,
         dataset := doc.dataset_s,
         dataset_id := doc.dataset_id_s,
         granule := doc.granule_s,
         bbox := bb,
         min_time := mnT,
         max_time := mxT,
         section_spec := doc.sectionSpec_s,
         tile_stats := statsOf doc,
         tile_variables := varsOverride doc vars1 }

def metadata_store_docs_to_tiles : List StoreDoc → Except NexusError (List Tile)
  | [] => .ok []
  | doc :: rest => do
    let t ← docToTile doc
    let ts ← metadata_store_docs_to_tiles rest
    .ok (t :: ts)

def firstOk : NumOrList → Bool
  | .lst [] => false
  | _ => true

def jsonOk (s : String) : Bool :=
  !(strContains s '[') || (jsonLoadsList s).isSome

/- A document whose present values are well formed: timestamps parse in
   the solr format, bracketed variable-name fields json-decode, and
   list-valued bounding-box fields are nonempty. -/
def wellFormedDoc (doc : StoreDoc) : Bool :=
  doc.tile_min_time_dt.all (fun s => (parseSolrDate s).isSome) &&
  doc.tile_max_time_dt.all (fun s => (parseSolrDate s).isSome) &&
  doc.tile_min_lat.all firstOk && doc.tile_min_lon.all firstOk &&
  doc.tile_max_lat.all firstOk && doc.tile_max_lon.all firstOk &&
  doc.tile_var_name_s.all jsonOk && doc.tile_standard_name_s.all jsonOk

/- ------------------------------------------------------------------ -/
/- fetch_data_for_tiles (lines 401-424).  The data store response to
   fetch_nexus_tiles is a list of per-tile payloads; get_lat_lon_time_data_meta
   yields the six payload components. -/

structure FetchedTile where
  tile_id : String
  lats : List Int
  lons : List Int
  times : List Int
  vals : List Int
  meta : String
  is_multi : Bool
deriving Repr, DecidableEq

/- tile_data_by_id = {str(t.tile_id): t for t in matched}: a Python dict
   comprehension, later entries winning; modelled with unique keys by
   construction. -/
def buildDict (matched : List FetchedTile) : List (String × FetchedTile) :=
  matched.foldl (fun m ft => (ft.tile_id, ft) :: m.filter (fun p => !(p.1 == ft.tile_id))) []

def dictErase (m : List (String × FetchedTile)) (k : String) : List (String × FetchedTile) :=
  m.filter (fun p => !(p.1 == k))

def dictLookup (m : List (String × FetchedTile)) : DKey → Option FetchedTile
  | none => none
  | some s => List.lookup s m

def populateTile (t : Tile) (ft : FetchedTile) : Tile :=
  { t with latitudes := some ft.lats, longitudes := some ft.lons, times := some ft.times,
           tdata := some ft.vals, meta_data := some ft.meta, is_multi := some ft.is_multi }

/- The population loop (lines 412-422): look the tile id up in the dict
   (KeyError when absent, e.g. after the del of a duplicate id), assign
   the six payload fields, then del the dict entry. -/
def populateAll (m : List (String × FetchedTile)) : List Tile → Except NexusError (List Tile)
  | [] => .ok []
  | t :: ts =>
    match t.tile_id with
    | none => .error (.keyError "None")
    | some s =>
      match List.lookup s m with
      | none => .error (.keyError s)
      | some ft => do
        let rest ← populateAll (dictErase m s) ts
        .ok (populateTile t ft :: rest)

/- fetch_data_for_tiles: the missing-id check (set difference of requested
   ids against dict keys, lines 408-410; its emptiness is equivalent to
   every requested id having a dict entry) and then the population loop. -/
def fetch_data_for_tiles (tiles : List Tile) (matched : List FetchedTile) :
    Except NexusError (List Tile) :=
  let m := buildDict matched
  if tiles.any (fun t => (dictLookup m t.tile_id).isNone) then
    .error .missingData
  else
    populateAll m tiles

/- ------------------------------------------------------------------ -/
/- The tile_data decorator (lines 55-83): run the wrapped lookup to get
   metadata docs, convert them to tiles, optionally batch-fetch payloads
   (kwargs fetch_data overriding the decorator default, fetch skipped on
   an empty tile list), then invoke the optional metrics callback with the
   two phase durations and the tile count, swallowing and logging any
   exception it raises.  Wall-clock durations are opaque inputs here. -/
def applyMetricsCallback (cb : Option (Nat → Nat → Nat → Except NexusError Unit))
    (cassDur mdDur : Nat) (tiles2 : List Tile) : Except NexusError (List Tile) :=
  match cb with
  | none => pure tiles2
  | some f =>
    match f cassDur mdDur tiles2.length with
    | .ok _ => pure tiles2
    | .error _ => pure tiles2

def tile_data_pipeline (defaultFetch : Bool) (fetchKw : Option Bool)
    (mdDur cassDur : Nat)
    (cb : Option (Nat → Nat → Nat → Except NexusError Unit))
    (docs : List StoreDoc) (matched : List FetchedTile) :
    Except NexusError (List Tile) := do
  let tiles ← metadata_store_docs_to_tiles docs
  let tiles2 ←
    if fetchKw.getD defaultFetch then
      if tiles.length > 0 then fetch_data_for_tiles tiles matched else pure tiles
    else
      pure tiles
  applyMetricsCallback cb cassDur mdDur tiles2

/- find_tiles_in_box / find_tiles_in_polygon (lines 231-247) under the
   tile_data() decorator: resolve the backend for ds (propagating its
   exceptions), let the external metadata index return docs, then run the
   decorator pipeline with default_fetch = true. -/
def find_tiles_in_box_call (tc : Backend → Bool) (reg : RegState) (ds : DKey)
    (fetchKw : Option Bool) (mdDur cassDur : Nat)
    (cb : Option (Nat → Nat → Nat → Except NexusError Unit))
    (docs : List StoreDoc) (matched : List FetchedTile) :
    Except NexusError (List Tile) := do
  let _ ← getBackend tc reg ds
  tile_data_pipeline true fetchKw mdDur cassDur cb docs matched

def find_tiles_in_polygon_call (tc : Backend → Bool) (reg : RegState) (ds : DKey)
    (fetchKw : Option Bool) (mdDur cassDur : Nat)
    (cb : Option (Nat → Nat → Nat → Except NexusError Unit))
    (docs : List StoreDoc) (matched : List FetchedTile) :
    Except NexusError (List Tile) := do
  let _ ← getBackend tc reg ds
  tile_data_pipeline true fetchKw mdDur cassDur cb docs matched

/- ------------------------------------------------------------------ -/
/- Masking engine.  Modelled from the spec: the masking code
   (mask_tiles_to_bbox, mask_tiles_to_polygon, mask_tiles_to_time_range)
   is not among the provided sources; per section 4.4 masking removes the
   sample points outside the window or region via boolean keep-masks over
   the sample arrays, box masking compares raw lat/lon, polygon masking
   performs point-in-polygon containment per sample, and time masking
   keeps the closed interval [start, end].  A tile whose payload is not
   populated is outside the spec precondition and is left unchanged. -/

structure Sample where
  lat : Int
  lon : Int
  time : Int
  val : Int
deriving Repr, DecidableEq

def zip4 : List Int → List Int → List Int → List Int → List Sample
  | a :: as, b :: bs, c :: cs, d :: ds => ⟨a, b, c, d⟩ :: zip4 as bs cs ds
  | _, _, _, _ => []

def tileSamples (t : Tile) : List Sample :=
  match t.latitudes, t.longitudes, t.times, t.tdata with
  | some la, some lo, some ti, some da => zip4 la lo ti da
  | _, _, _, _ => []

def setSamples (t : Tile) (s : List Sample) : Tile :=
  { t with latitudes := some (s.map (·.lat)), longitudes := some (s.map (·.lon)),
           times := some (s.map (·.time)), tdata := some (s.map (·.val)) }

def maskTile (keep : Sample → Bool) (t : Tile) : Tile :=
  match t.latitudes, t.longitudes, t.times, t.tdata with
  | some la, some lo, some ti, some da => setSamples t ((zip4 la lo ti da).filter keep)
  | _, _, _, _ => t

def inBoxB (minLat maxLat minLon maxLon : Int) (s : Sample) : Bool :=
  decide (minLat ≤ s.lat) && decide (s.lat ≤ maxLat) &&
  decide (minLon ≤ s.lon) && decide (s.lon ≤ maxLon)

def inTimeB (startTime endTime : Int) (s : Sample) : Bool :=
  decide (startTime ≤ s.time) && decide (s.time ≤ endTime)

def mask_tiles_to_bbox (minLat maxLat minLon maxLon : Int) (tiles : List Tile) : List Tile :=
  tiles.map (maskTile (inBoxB minLat maxLat minLon maxLon))

def mask_tiles_to_time_range (startTime endTime : Int) (tiles : List Tile) : List Tile :=
  tiles.map (maskTile (inTimeB startTime endTime))

/- A polygon is abstracted by its point-in-polygon containment test. -/
structure Polygon where
  containsF : Int → Int → Bool

def mask_tiles_to_polygon (p : Polygon) (tiles : List Tile) : List Tile :=
  tiles.map (maskTile (fun s => p.containsF s.lat s.lon))

/- get_tiles_bounded_by_box (lines 294-301): find tiles, mask to the box,
   and mask to the time range exactly when 0 <= start_time <= end_time. -/
def get_tiles_bounded_by_box (tc : Backend → Bool) (reg : RegState)
    (minLat maxLat minLon maxLon : Int) (ds : DKey) (startTime endTime : Int)
    (fetchKw : Option Bool) (mdDur cassDur : Nat)
    (cb : Option (Nat → Nat → Nat → Except NexusError Unit))
    (docs : List StoreDoc) (matched : List FetchedTile) :
    Except NexusError (List Tile) := do
  let tiles ← find_tiles_in_box_call tc reg ds fetchKw mdDur cassDur cb docs matched
  let tiles := mask_tiles_to_bbox minLat maxLat minLon maxLon tiles
  let tiles :=
    if 0 ≤ startTime ∧ startTime ≤ endTime then
      mask_tiles_to_time_range startTime endTime tiles
    else
      tiles
  pure tiles

/- get_tiles_bounded_by_polygon (lines 303-310). -/
def get_tiles_bounded_by_polygon (tc : Backend → Bool) (reg : RegState)
    (p : Polygon) (ds : DKey) (startTime endTime : Int)
    (fetchKw : Option Bool) (mdDur cassDur : Nat)
    (cb : Option (Nat → Nat → Nat → Except NexusError Unit))
    (docs : List StoreDoc) (matched : List FetchedTile) :
    Except NexusError (List Tile) := do
  let tiles ← find_tiles_in_polygon_call tc reg ds fetchKw mdDur cassDur cb docs matched
  let tiles := mask_tiles_to_polygon p tiles
  let tiles :=
    if 0 ≤ startTime ∧ startTime ≤ endTime then
      mask_tiles_to_time_range startTime endTime tiles
    else
      tiles
  pure tiles

/- Store types recognized by the insertion loop of _update_datasets. -/
def recognizedB (doc : CatalogDoc) : Bool :=
  storeTypeOf doc = "nexus_proto" ∨ storeTypeOf doc = "nexusproto" ∨ storeTypeOf doc = "zarr"

/- The per-tile effect of a successful fetch_data_for_tiles: payload
   fields assigned from the dict entry of the tile id. -/
def popFun (m : List (String × FetchedTile)) (t : Tile) : Tile :=
  match dictLookup m t.tile_id with
  | some ft => populateTile t ft
  | none => t

/- ------------------------------------------------------------------ -/
/- Concrete inputs used by witnesses and counterexamples. -/

def tcFalse : Backend → Bool := fun _ => false

def docA : CatalogDoc := { dataset_s := "A", store_type_s := some "nexusproto" }

def docB : CatalogDoc := { dataset_s := "B", store_type_s := some "nexusproto" }

def regAfterFirstRefresh : RegState :=
  { heap := [{ backend := .nexusproto, up := true }], map := [(some "A", 0)] }

def bindingC : Binding := { backend := .nexusproto, up := false }

def regC : RegState := { heap := [bindingC], map := [(some "C", 0)] }

def tileA : Tile := { tile_id := some "A" }

def tileA2 : Tile := { tile_id := some "A", dataset := some "ds2" }

def tileB : Tile := { tile_id := some "B" }

def ftA : FetchedTile :=
  { tile_id := "A", lats := [1, 5], lons := [2, 6], times := [3, 7], vals := [4, 8],
    meta := "m", is_multi := false }

def ftB : FetchedTile :=
  { tile_id := "B", lats := [10], lons := [11], times := [12], vals := [13],
    meta := "n", is_multi := true }

def minimalDoc : StoreDoc := { id := some "A" }

def badDateDoc : StoreDoc := { id := some "T", tile_min_time_dt := some "garbage" }

def feb30Doc : StoreDoc :=
  { id := some "F", tile_min_time_dt := some "2021-02-30T00:00:00Z" }

def goodDoc : StoreDoc :=
  { id := some "G",
    tile_min_lat := some (.lst [-10, 0]),
    tile_max_lat := some (.num 10),
    tile_min_lon := some (.num (-20)),
    tile_max_lon := some (.num 20),
    dataset_s := some "dsG",
    dataset_id_s := some "dsG-id",
    granule_s := some "gran",
    tile_min_time_dt := some "2020-01-02T03:04:05Z",
    tile_max_time_dt := some "2020-01-02T03:04:06Z",
    sectionSpec_s := some "sec",
    tile_min_val_d := some 1,
    tile_max_val_d := some 9,
    tile_avg_val_d := some 5,
    tile_count_i := some 4,
    tile_var_name_s := some "sst" }

def polyAll : Polygon := { containsF := fun _ _ => true }

def seedBinding : Binding := { backend := .nexusproto, up := true }

def bX : Binding := { backend := .zarr "cfgX", up := true }

def regW : RegState :=
  { heap := [seedBinding, bX],
    map := [(none, 0), (some "__nexusproto__", 0), (some "OLD", 1)] }

def docZ : CatalogDoc := { dataset_s := "Z", store_type_s := some "zarr", config := some ["cfg"] }

def docU : CatalogDoc := { dataset_s := "U", store_type_s := some "weird" }

def docAlias : CatalogDoc := { dataset_s := "__nexusproto__" }

def ftG : FetchedTile :=
  { tile_id := "G", lats := [1, 20], lons := [2, 21], times := [3, 22], vals := [4, 23],
    meta := "mg", is_multi := false }

def tilesG : List Tile :=
  (find_tiles_in_box_call tcFalse seededState none none 0 0 none [goodDoc] [ftG]).toOption.getD []

/- ================================================================== -/
/- Helper lemmas about association-list lookup. -/

theorem lookup_cons_self {α β} [BEq α] [LawfulBEq α] (k : α) (v : β) (m : List (α × β)) :
    List.lookup k ((k, v) :: m) = some v := by
  simp [List.lookup_cons]

theorem lookup_cons_ne {α β} [BEq α] [LawfulBEq α] {k k' : α} (v : β) (m : List (α × β))
    (h : k ≠ k') : List.lookup k ((k', v) :: m) = List.lookup k m := by
  rw [List.lookup_cons]
  have hb : (k == k') = false := beq_eq_false_iff_ne.mpr h
  simp [hb]

theorem mem_of_lookup {α β} [BEq α] [LawfulBEq α] {k : α} {v : β} :
    ∀ {m : List (α × β)}, List.lookup k m = some v → (k, v) ∈ m := by
  intro m
  induction m with
  | nil => intro h; simp [List.lookup] at h
  | cons kv m ih =>
    intro h
    obtain ⟨k', v'⟩ := kv
    by_cases he : (k == k') = true
    · have hk : k = k' := by simpa using he
      subst hk
      rw [lookup_cons_self] at h
      obtain rfl : v' = v := by simpa using h
      exact List.mem_cons_self _ _
    · have hk : k ≠ k' := by simpa using he
      rw [lookup_cons_ne _ _ hk] at h
      exact List.mem_cons_of_mem _ (ih h)

theorem lookup_filter_key {α β} [BEq α] [LawfulBEq α] (q : α → Bool) (m : List (α × β)) (k : α) :
    List.lookup k (m.filter (fun kv => q kv.1)) = if q k then List.lookup k m else none := by
  induction m with
  | nil => simp [List.lookup]
  | cons kv m ih =>
    obtain ⟨k', v⟩ := kv
    by_cases he : k = k'
    · subst he
      by_cases hq : q k
      · simp [List.filter_cons, hq, lookup_cons_self]
      · simp only [List.filter_cons, hq, Bool.false_eq_true, ite_false]
        rw [ih]
        simp [hq]
    · by_cases hq : q k'
      · simp only [List.filter_cons, hq, ite_true]
        rw [lookup_cons_ne _ _ he, lookup_cons_ne _ _ he, ih]
      · simp only [List.filter_cons, hq, Bool.false_eq_true, ite_false]
        rw [ih, lookup_cons_ne _ _ he]

/- ================================================================== -/
/- Claim theorems. -/

/-- Claim C2 (confirmed): backend resolution behaves as specified: an
unbound dataset raises DatasetNotFound; a bound but not-live dataset
triggers try_connect, is marked live and returned on success, and raises
BackendUnavailable with the binding left not-live (registry unchanged) on
failure; a live binding returns its handle directly; and the
backend-unavailable error is distinct from the dataset-not-found error. -/
theorem claim2_backend_resolution (tc : Backend → Bool) (reg : RegState) (d : DKey) :
    (List.lookup d reg.map = none →
      getBackend tc reg d = .error (.datasetNotFound d) ∧ getBackendState tc reg d = reg) ∧
    (∀ a b, List.lookup d reg.map = some a → reg.heap[a]? = some b →
      (b.up = true →
        getBackend tc reg d = .ok b.backend ∧ getBackendState tc reg d = reg) ∧
      (b.up = false → tc b.backend = true →
        getBackend tc reg d = .ok b.backend ∧
        getBackendState tc reg d = { reg with heap := reg.heap.set a { b with up := true } }) ∧
      (b.up = false → tc b.backend = false →
        getBackend tc reg d = .error (.backendUnavailable d) ∧
        getBackendState tc reg d = reg)) ∧
    (∀ x y, NexusError.backendUnavailable x ≠ NexusError.datasetNotFound y) := by
  refine ⟨?_, ?_, ?_⟩
  · intro h
    constructor <;> simp [getBackend, getBackendState, getBackendT, h]
  · intro a b ha hb
    refine ⟨?_, ?_, ?_⟩
    · intro hup
      constructor <;> simp [getBackend, getBackendState, getBackendT, ha, hb, hup]
    · intro hup htc
      constructor <;> simp [getBackend, getBackendState, getBackendT, ha, hb, hup, htc]
    · intro hup htc
      constructor <;> simp [getBackend, getBackendState, getBackendT, ha, hb, hup, htc]
  · exact fun x y h => NexusError.noConfusion h

theorem claim2_witness :
    (List.lookup (some "C") regC.map = some 0 ∧ regC.heap[0]? = some bindingC ∧
     bindingC.up = false ∧ tcFalse bindingC.backend = false) ∧
    getBackend tcFalse regC (some "C") = .error (.backendUnavailable (some "C")) ∧
    getBackendState tcFalse regC (some "C") = regC :=
  ⟨⟨by decide, by decide, by decide, by decide⟩,
   ((claim2_backend_resolution tcFalse regC (some "C")).2.1 0 bindingC
     (by decide) (by decide)).2.2 (by decide) (by decide)⟩

/-- Claim C1 (code_bug): the claim says every catalog-refresh cycle keeps
the default binding reachable under both the None key and the alias key
"__nexusproto__".  The code instead removes every registry key that the
catalog does not list, and the catalog never lists None (and normally not
the alias either): after one refresh with a catalog listing only dataset
A, both keys are gone, resolution through them raises DatasetNotFound,
and a later cycle that meets a new nexusproto dataset crashes with a
KeyError on backends[None]. -/
theorem claim1_refresh_drops_default_binding :
    updateDatasets seededState [docA] = .ok regAfterFirstRefresh ∧
    List.lookup (none : DKey) regAfterFirstRefresh.map = none ∧
    List.lookup (some "__nexusproto__") regAfterFirstRefresh.map = none ∧
    getBackend tcFalse regAfterFirstRefresh (some "__nexusproto__") =
      .error (.datasetNotFound (some "__nexusproto__")) ∧
    getBackend tcFalse regAfterFirstRefresh none = .error (.datasetNotFound none) ∧
    updateDatasets regAfterFirstRefresh [docA, docB] = .error .keyErrorNoneKey :=
  ⟨by decide, by decide, by decide, by decide, by decide, by decide⟩

/-- Claim C4 counterexample: a failing catalog query does not leave the
refresher alive with the cycle skipped; the uncaught exception terminates
the refresher loop before any later cycle runs. -/
theorem claim4_counterexample :
    refresherRun seededState [.error .solrError, .ok []] = .crashed 0 .solrError ∧
    (refresherRun seededState [.error .solrError, .ok []]).isAlive = false :=
  ⟨rfl, rfl⟩

/-- Claim C4 (corrected, amended): the refresher loop body has no
exception handler, so a failure of the catalog query propagates out of
the loop and terminates the background refresher thread; the remaining
cycles never run. -/
theorem claim4_amended_crash_propagates (reg : RegState) (e : NexusError)
    (qs : List (Except NexusError (List CatalogDoc))) :
    refresherRun reg (.error e :: qs) = .crashed 0 e := rfl

theorem applyMetricsCallback_swallows (cb : Option (Nat → Nat → Nat → Except NexusError Unit))
    (cassDur mdDur : Nat) (tiles2 : List Tile) :
    applyMetricsCallback cb cassDur mdDur tiles2 = pure tiles2 := by
  unfold applyMetricsCallback
  cases cb with
  | none => rfl
  | some f =>
    show (match f cassDur mdDur tiles2.length with
          | .ok _ => (pure tiles2 : Except NexusError (List Tile))
          | .error _ => pure tiles2) = pure tiles2
    cases f cassDur mdDur tiles2.length <;> rfl

/-- Claim C7 (confirmed): the tile_data pipeline produces exactly the same
outcome with any caller-supplied metrics callback as with none: an
exception raised by the callback (invoked with the two phase durations
and the tile count) is caught and logged and the tile list is still
returned, so instrumentation can never fail a query. -/
theorem claim7_metrics_callback_never_propagates (defaultFetch : Bool) (fetchKw : Option Bool)
    (mdDur cassDur : Nat) (f : Nat → Nat → Nat → Except NexusError Unit)
    (docs : List StoreDoc) (matched : List FetchedTile) :
    tile_data_pipeline defaultFetch fetchKw mdDur cassDur (some f) docs matched =
      tile_data_pipeline defaultFetch fetchKw mdDur cassDur none docs matched := by
  simp [tile_data_pipeline, applyMetricsCallback_swallows]

/- Lock-discipline lemmas for claim C8. -/

theorem evList_locked_of_all {l : List Ev} {locked : Bool}
    (h : l.all (fun e => e.locked == locked) = true) : ∀ e ∈ l, e.locked = locked := by
  intro e he
  have := List.all_eq_true.mp h e he
  simpa using this

theorem resolveEvents_all_unlocked (tc : Backend → Bool) (reg : RegState) (d : DKey) :
    (resolveEvents tc reg d).all (fun e => e.locked == false) = true := by
  unfold resolveEvents getBackendT
  split
  · simp
  · split
    · simp
    · split
      · simp
      · split <;> simp

theorem updateInsertEvs_all_locked (reg : RegState) (doc : CatalogDoc) (locked : Bool) :
    (updateInsertEvs reg doc locked).all (fun e => e.locked == locked) = true := by
  by_cases h1 : (List.lookup (some doc.dataset_s) reg.map).isSome
  · simp [updateInsertEvs, h1]
  · by_cases h2 : storeTypeOf doc = "nexus_proto" ∨ storeTypeOf doc = "nexusproto"
    · cases h3 : List.lookup (none : DKey) reg.map <;> simp [updateInsertEvs, h1, h2, h3]
    · by_cases h4 : storeTypeOf doc = "zarr"
      · cases h5 : doc.config with
        | none => simp [updateInsertEvs, h1, h2, h4, h5]
        | some l => cases l <;> simp [updateInsertEvs, h1, h2, h4, h5]
      · simp [updateInsertEvs, h1, h2, h4]

theorem updatePhase1Events_all_locked (docs : List CatalogDoc) :
    ∀ (reg : RegState) (locked : Bool),
      (updatePhase1Events reg locked docs).all (fun e => e.locked == locked) = true := by
  induction docs with
  | nil => intro reg locked; rfl
  | cons doc rest ih =>
    intro reg locked
    rw [updatePhase1Events, List.all_append]
    rw [updateInsertEvs_all_locked]
    cases h : updateInsert reg doc with
    | error err => simp
    | ok reg1 => simp [ih reg1 locked]

theorem updateDatasetsEvents_all_locked (reg : RegState) (docs : List CatalogDoc) (locked : Bool) :
    (updateDatasetsEvents reg docs locked).all (fun e => e.locked == locked) = true := by
  unfold updateDatasetsEvents
  rw [List.all_append, updatePhase1Events_all_locked]
  cases h : updateFold reg docs with
  | error err => simp
  | ok reg1 =>
    rw [Bool.true_and]
    rw [List.all_eq_true]
    intro e he
    rw [List.mem_map] at he
    obtain ⟨kv, _, rfl⟩ := he
    simp

/-- Claim C8 counterexample: __get_backend performs its registry reads
without acquiring DS_LOCK, so a resolve call emits a registry read with
the lock not held, contradicting the claim that every resolve read runs
under the registry lock. -/
theorem claim8_counterexample :
    Ev.mk (.read none) false ∈ resolveEvents tcFalse seededState none ∧
    (Ev.mk (.read none) false).locked = false :=
  ⟨by decide, rfl⟩

/-- Claim C8 (corrected, amended): the structural mutations of a refresh
cycle all execute while the refresher thread holds DS_LOCK (the loop body
wraps _update_datasets in the lock), but every registry access performed
by resolve (__get_backend), reads and its mark-live write alike, executes
without the lock. -/
theorem claim8_amended_lock_discipline :
    (∀ (tc : Backend → Bool) (reg : RegState) (d : DKey),
      ∀ e ∈ resolveEvents tc reg d, e.locked = false) ∧
    (∀ (reg : RegState) (docs : List CatalogDoc),
      ∀ e ∈ refresherCycleEvents reg docs, e.locked = true) :=
  ⟨fun tc reg d => evList_locked_of_all (resolveEvents_all_unlocked tc reg d),
   fun reg docs => evList_locked_of_all (updateDatasetsEvents_all_locked reg docs true)⟩

theorem claim8_witness :
    (Ev.mk (.read (some "B")) false ∈ resolveEvents tcFalse seededState (some "B") ∧
     Ev.mk (.write (some "B")) true ∈ refresherCycleEvents seededState [docB]) ∧
    (Ev.mk (.read (some "B")) false).locked = false ∧
    (Ev.mk (.write (some "B")) true).locked = true :=
  ⟨⟨by decide, by decide⟩,
   claim8_amended_lock_discipline.1 tcFalse seededState (some "B") _ (by decide),
   claim8_amended_lock_discipline.2 seededState [docB] _ (by decide)⟩

/- ------------------------------------------------------------------ -/
/- Lemmas about the fetch dictionary and the population loop. -/

theorem dict_lookup_erase_self (m : List (String × FetchedTile)) (s : String) :
    List.lookup s (dictErase m s) = none := by
  have h := lookup_filter_key (fun x => !(x == s)) m s
  simp only [beq_self_eq_true, Bool.not_true, Bool.false_eq_true, if_false] at h
  simpa [dictErase] using h

theorem dict_lookup_erase_ne {k s : String} (m : List (String × FetchedTile)) (h : k ≠ s) :
    List.lookup k (dictErase m s) = List.lookup k m := by
  have h2 := lookup_filter_key (fun x => !(x == s)) m k
  have hb : (k == s) = false := beq_eq_false_iff_ne.mpr h
  simp only [hb, Bool.not_false, if_true] at h2
  simpa [dictErase] using h2

theorem populateAll_ok :
    ∀ (tiles : List Tile) (m : List (String × FetchedTile)),
      (∀ t ∈ tiles, (dictLookup m t.tile_id).isSome = true) →
      (tiles.map (fun t => t.tile_id)).Nodup →
      populateAll m tiles = .ok (tiles.map (popFun m)) := by
  intro tiles
  induction tiles with
  | nil => intro m _ _; rfl
  | cons t ts ih =>
    intro m hall hnd
    have ht := hall t (List.mem_cons_self t ts)
    cases hid : t.tile_id with
    | none => rw [hid] at ht; simp [dictLookup] at ht
    | some s =>
      rw [hid] at ht
      cases hft : List.lookup s m with
      | none => simp only [dictLookup, hft, Option.isSome_none] at ht; cases ht
      | some ft =>
        rw [List.map_cons, List.nodup_cons] at hnd
        obtain ⟨hnotin, hndts⟩ := hnd
        have hne : ∀ u ∈ ts, ∃ su, u.tile_id = some su ∧ su ≠ s := by
          intro u hu
          have hu2 := hall u (List.mem_cons_of_mem t hu)
          cases hud : u.tile_id with
          | none => rw [hud] at hu2; simp [dictLookup] at hu2
          | some su =>
            refine ⟨su, rfl, ?_⟩
            intro hsu
            apply hnotin
            rw [hid, ← hsu, ← hud]
            exact List.mem_map_of_mem _ hu
        have hall2 : ∀ u ∈ ts, (dictLookup (dictErase m s) u.tile_id).isSome = true := by
          intro u hu
          obtain ⟨su, hud, hsu⟩ := hne u hu
          rw [hud]
          show (List.lookup su (dictErase m s)).isSome = true
          rw [dict_lookup_erase_ne m hsu]
          have hu2 := hall u (List.mem_cons_of_mem t hu)
          rw [hud] at hu2
          exact hu2
        have hih := ih (dictErase m s) hall2 hndts
        have hmaps : ts.map (popFun (dictErase m s)) = ts.map (popFun m) := by
          apply List.map_congr_left
          intro u hu
          obtain ⟨su, hud, hsu⟩ := hne u hu
          unfold popFun
          rw [hud]
          have heq : dictLookup (dictErase m s) (some su) = dictLookup m (some su) := by
            show List.lookup su (dictErase m s) = List.lookup su m
            exact dict_lookup_erase_ne m hsu
          rw [heq]
        have hpop : popFun m t = populateTile t ft := by
          unfold popFun
          rw [hid]
          have heq : dictLookup m (some s) = some ft := hft
          rw [heq]
        simp only [populateAll, hid, hft]
        rw [hih, hmaps, List.map_cons, hpop]
        rfl

theorem populateAll_missing :
    ∀ (ts : List Tile) (m : List (String × FetchedTile)),
      (∃ u ∈ ts, dictLookup m u.tile_id = none) →
      ∃ k, populateAll m ts = .error (.keyError k) := by
  intro ts
  induction ts with
  | nil =>
    intro m h
    obtain ⟨u, hu, _⟩ := h
    cases hu
  | cons t ts ih =>
    intro m h
    cases hid : t.tile_id with
    | none => exact ⟨"None", by simp only [populateAll, hid]⟩
    | some s =>
      cases hft : List.lookup s m with
      | none => exact ⟨s, by simp only [populateAll, hid, hft]⟩
      | some ft =>
        obtain ⟨u, hu, hun⟩ := h
        rcases List.mem_cons.mp hu with rfl | hu2
        · rw [hid] at hun
          exact absurd hun (by simp [dictLookup, hft])
        · have hx : ∃ u2 ∈ ts, dictLookup (dictErase m s) u2.tile_id = none := by
            refine ⟨u, hu2, ?_⟩
            cases hud : u.tile_id with
            | none => rfl
            | some su =>
              by_cases hsu : su = s
              · subst hsu
                exact dict_lookup_erase_self m su
              · rw [hud] at hun
                show List.lookup su (dictErase m s) = none
                rw [dict_lookup_erase_ne m hsu]
                exact hun
          obtain ⟨k, hk⟩ := ih (dictErase m s) hx
          refine ⟨k, ?_⟩
          simp only [populateAll, hid, hft]
          rw [hk]
          rfl

theorem populateAll_dup :
    ∀ (tiles : List Tile) (m : List (String × FetchedTile)),
      ¬ (tiles.map (fun t => t.tile_id)).Nodup →
      ∃ k, populateAll m tiles = .error (.keyError k) := by
  intro tiles
  induction tiles with
  | nil => intro m h; exact absurd List.nodup_nil h
  | cons t ts ih =>
    intro m h
    cases hid : t.tile_id with
    | none => exact ⟨"None", by simp only [populateAll, hid]⟩
    | some s =>
      cases hft : List.lookup s m with
      | none => exact ⟨s, by simp only [populateAll, hid, hft]⟩
      | some ft =>
        by_cases hin : t.tile_id ∈ ts.map (fun u => u.tile_id)
        · rw [hid, List.mem_map] at hin
          obtain ⟨u, hu, hueq⟩ := hin
          have hx : ∃ u2 ∈ ts, dictLookup (dictErase m s) u2.tile_id = none := by
            refine ⟨u, hu, ?_⟩
            rw [hueq]
            exact dict_lookup_erase_self m s
          obtain ⟨k, hk⟩ := populateAll_missing ts (dictErase m s) hx
          refine ⟨k, ?_⟩
          simp only [populateAll, hid, hft]
          rw [hk]
          rfl
        · have hnd : ¬ (ts.map (fun u => u.tile_id)).Nodup := by
            intro hc
            exact h (by rw [List.map_cons]; exact List.nodup_cons.mpr ⟨hin, hc⟩)
          obtain ⟨k, hk⟩ := ih (dictErase m s) hnd
          refine ⟨k, ?_⟩
          simp only [populateAll, hid, hft]
          rw [hk]
          rfl

/-- Claim C5 counterexample: a call of fetch_data_for_tiles over two tiles
bearing the same tile id, with that id present in the data store response
(so no requested id is absent), raises a KeyError instead of returning the
populated tiles, refuting the unconditional claim. -/
theorem claim5_counterexample :
    fetch_data_for_tiles [tileA, tileA2] [ftA] = .error (.keyError "A") ∧
    (∀ t ∈ [tileA, tileA2], (dictLookup (buildDict [ftA]) t.tile_id).isSome = true) :=
  ⟨by decide, by decide⟩

/-- Claim C5 (corrected, amended): provided the input tile ids are
pairwise distinct, fetch_data_for_tiles raises the data-integrity error
when any requested tile id is absent from the batched fetch result, and
otherwise returns every input tile with its latitude, longitude, time,
value, metadata and multi-variable payload fields populated from the
fetch result entry keyed by its tile id. -/
theorem claim5_amended_fetch_all_or_error (tiles : List Tile) (matched : List FetchedTile)
    (hdist : (tiles.map (fun t => t.tile_id)).Nodup) :
    (tiles.any (fun t => (dictLookup (buildDict matched) t.tile_id).isNone) = true →
      fetch_data_for_tiles tiles matched = .error .missingData) ∧
    (tiles.any (fun t => (dictLookup (buildDict matched) t.tile_id).isNone) = false →
      fetch_data_for_tiles tiles matched = .ok (tiles.map (popFun (buildDict matched))) ∧
      ∀ t2 ∈ tiles.map (popFun (buildDict matched)), isPopulated t2 = true) := by
  constructor
  · intro h
    unfold fetch_data_for_tiles
    rw [if_pos h]
  · intro h
    have hall : ∀ t ∈ tiles, (dictLookup (buildDict matched) t.tile_id).isSome = true := by
      rw [List.any_eq_false] at h
      intro t ht
      have hnn := h t ht
      cases hd : dictLookup (buildDict matched) t.tile_id with
      | none =>
        exact absurd (show (dictLookup (buildDict matched) t.tile_id).isNone = true by
          rw [hd]; rfl) hnn
      | some ft => rfl
    constructor
    · unfold fetch_data_for_tiles
      rw [if_neg (by simp [h])]
      exact populateAll_ok tiles (buildDict matched) hall hdist
    · intro t2 ht2
      rw [List.mem_map] at ht2
      obtain ⟨t, ht, rfl⟩ := ht2
      have hsome := hall t ht
      unfold popFun
      cases hd : dictLookup (buildDict matched) t.tile_id with
      | none => rw [hd] at hsome; simp at hsome
      | some ft => rfl

theorem claim5_witness :
    ((([tileA, tileB]).map (fun t => t.tile_id)).Nodup ∧
     ([tileA, tileB]).any (fun t => (dictLookup (buildDict [ftA, ftB]) t.tile_id).isNone) = false) ∧
    (fetch_data_for_tiles [tileA, tileB] [ftA, ftB] =
       .ok ([tileA, tileB].map (popFun (buildDict [ftA, ftB]))) ∧
     ∀ t2 ∈ [tileA, tileB].map (popFun (buildDict [ftA, ftB])), isPopulated t2 = true) :=
  ⟨⟨by decide, by decide⟩,
   (claim5_amended_fetch_all_or_error [tileA, tileB] [ftA, ftB] (by decide)).2 (by decide)⟩

/-- Claim C9 (confirmed): fetch_data_for_tiles requires pairwise-distinct
tile ids: when every requested id is present in the fetch result but the
input sequence repeats a tile id, the population loop deletes the dict
entry after the first occurrence and the second lookup raises a KeyError
instead of populating both tiles. -/
theorem claim9_duplicate_ids_fail (tiles : List Tile) (matched : List FetchedTile)
    (hall : tiles.any (fun t => (dictLookup (buildDict matched) t.tile_id).isNone) = false)
    (hdup : ¬ (tiles.map (fun t => t.tile_id)).Nodup) :
    ∃ k, fetch_data_for_tiles tiles matched = .error (.keyError k) := by
  obtain ⟨k, hk⟩ := populateAll_dup tiles (buildDict matched) hdup
  refine ⟨k, ?_⟩
  unfold fetch_data_for_tiles
  rw [if_neg (by simp [hall])]
  exact hk

theorem claim9_witness :
    (([tileA, tileA2].any (fun t => (dictLookup (buildDict [ftA]) t.tile_id).isNone) = false) ∧
     ¬ (([tileA, tileA2]).map (fun t => t.tile_id)).Nodup) ∧
    (∃ k, fetch_data_for_tiles [tileA, tileA2] [ftA] = .error (.keyError k)) :=
  ⟨⟨by decide, by decide⟩,
   claim9_duplicate_ids_fail [tileA, tileA2] [ftA] (by decide) (by decide)⟩

/- ------------------------------------------------------------------ -/
/- Lemmas for claim C3: behaviour of one catalog-refresh cycle. -/

theorem recognizedB_iff (doc : CatalogDoc) :
    recognizedB doc = true ↔
      (storeTypeOf doc = "nexus_proto" ∨ storeTypeOf doc = "nexusproto" ∨
       storeTypeOf doc = "zarr") := by
  simp [recognizedB]

theorem lookup_none_of_not_isSome {k : DKey} {m : List (DKey × Nat)}
    (h : ¬ (List.lookup k m).isSome = true) : List.lookup k m = none := by
  cases ho : List.lookup k m with
  | none => rfl
  | some x => exact absurd (by rw [ho]; rfl) h

theorem updateFold_spec :
    ∀ (docs : List CatalogDoc) (reg : RegState) (a0 : Nat) (b0 : Binding),
      (∀ kv ∈ reg.map, kv.2 < reg.heap.length) →
      List.lookup (none : DKey) reg.map = some a0 →
      reg.heap[a0]? = some b0 →
      b0.up = true →
      (∀ doc ∈ docs, storeTypeOf doc = "zarr" → doc.config.getD [] ≠ []) →
      (presentOf docs).Nodup →
      ∃ reg1, updateFold reg docs = .ok reg1 ∧
        (∀ kv ∈ reg1.map, kv.2 < reg1.heap.length) ∧
        List.lookup (none : DKey) reg1.map = some a0 ∧
        (∀ k a, List.lookup k reg.map = some a → List.lookup k reg1.map = some a) ∧
        (∀ a, a < reg.heap.length → reg1.heap[a]? = reg.heap[a]?) ∧
        reg.heap.length ≤ reg1.heap.length ∧
        (∀ doc ∈ docs, List.lookup (some doc.dataset_s) reg.map = none →
          recognizedB doc = true →
          ∃ a b, List.lookup (some doc.dataset_s) reg1.map = some a ∧
            reg1.heap[a]? = some b ∧ b.up = true) ∧
        (∀ d, List.lookup (some d) reg.map = none →
          (∀ doc ∈ docs, doc.dataset_s = d → recognizedB doc = false) →
          List.lookup (some d) reg1.map = none) := by
  intro docs
  induction docs with
  | nil =>
    intro reg a0 b0 hwf hnone hheap hup hz hnd
    exact ⟨reg, rfl, hwf, hnone, fun k a h => h, fun a _ => rfl, Nat.le_refl _,
           fun doc hd => absurd hd (List.not_mem_nil doc),
           fun d hd _ => hd⟩
  | cons doc rest ih =>
    intro reg a0 b0 hwf hnone hheap hup hz hnd
    have hzrest : ∀ doc2 ∈ rest, storeTypeOf doc2 = "zarr" → doc2.config.getD [] ≠ [] :=
      fun doc2 hd => hz doc2 (List.mem_cons_of_mem doc hd)
    have hndc := List.nodup_cons.mp hnd
    obtain ⟨hnotin, hndrest⟩ := hndc
    have ha0lt : a0 < reg.heap.length := hwf (none, a0) (mem_of_lookup hnone)
    by_cases hbound : (List.lookup (some doc.dataset_s) reg.map).isSome = true
    · -- dataset already bound: the loop continues
      have hstep : updateInsert reg doc = .ok reg := by
        unfold updateInsert
        rw [if_pos hbound]
        rfl
      obtain ⟨reg1, hF0, hF5, hF1, hF2, hF3, hF4, hF6, hF7⟩ :=
        ih reg a0 b0 hwf hnone hheap hup hzrest hndrest
      refine ⟨reg1, ?_, hF5, hF1, hF2, hF3, hF4, ?_, ?_⟩
      · rw [updateFold, hstep]
        exact hF0
      · intro doc2 hd2 hnew hrec
        rcases List.mem_cons.mp hd2 with rfl | hd3
        · rw [hnew] at hbound
          simp at hbound
        · exact hF6 doc2 hd3 hnew hrec
      · intro d hd hall
        exact hF7 d hd (fun doc2 hd2 => hall doc2 (List.mem_cons_of_mem doc hd2))
    · have hnb : List.lookup (some doc.dataset_s) reg.map = none :=
        lookup_none_of_not_isSome hbound
      by_cases hst : storeTypeOf doc = "nexus_proto" ∨ storeTypeOf doc = "nexusproto"
      · -- new nexusproto dataset: alias the default binding object
        have hstep : updateInsert reg doc =
            .ok { heap := reg.heap, map := (some doc.dataset_s, a0) :: reg.map } := by
          simp [updateInsert, hbound, hst, hnone]
          rfl
        set regB : RegState :=
          { heap := reg.heap, map := (some doc.dataset_s, a0) :: reg.map } with hregB
        have hwfB : ∀ kv ∈ regB.map, kv.2 < regB.heap.length := by
          intro kv hkv
          rcases List.mem_cons.mp hkv with rfl | hkv2
          · exact ha0lt
          · exact hwf kv hkv2
        have hnoneB : List.lookup (none : DKey) regB.map = some a0 := by
          rw [hregB]
          show List.lookup (none : DKey) ((some doc.dataset_s, a0) :: reg.map) = some a0
          rw [lookup_cons_ne _ _ (by simp)]
          exact hnone
        obtain ⟨reg1, hF0, hF5, hF1, hF2, hF3, hF4, hF6, hF7⟩ :=
          ih regB a0 b0 hwfB hnoneB hheap hup hzrest hndrest
        refine ⟨reg1, ?_, hF5, hF1, ?_, hF3, hF4, ?_, ?_⟩
        · rw [updateFold, hstep]
          exact hF0
        · intro k a hka
          have hkne : k ≠ some doc.dataset_s := by
            intro hkeq
            rw [hkeq, hnb] at hka
            cases hka
          apply hF2
          rw [hregB]
          show List.lookup k ((some doc.dataset_s, a0) :: reg.map) = some a
          rw [lookup_cons_ne _ _ hkne]
          exact hka
        · intro doc2 hd2 hnew hrec
          rcases List.mem_cons.mp hd2 with rfl | hd3
          · refine ⟨a0, b0, ?_, ?_, hup⟩
            · apply hF2
              rw [hregB]
              exact lookup_cons_self _ _ _
            · rw [hF3 a0 ha0lt]
              exact hheap
          · have hne2 : doc2.dataset_s ≠ doc.dataset_s := by
              intro heq2
              apply hnotin
              show doc.dataset_s ∈ List.map (fun x => x.dataset_s) rest
              rw [← heq2]
              exact List.mem_map_of_mem _ hd3
            refine hF6 doc2 hd3 ?_ hrec
            rw [hregB]
            show List.lookup (some doc2.dataset_s) ((some doc.dataset_s, a0) :: reg.map) = none
            rw [lookup_cons_ne _ _ (by simpa using hne2)]
            exact hnew
        · intro d hd hall
          have hne2 : doc.dataset_s ≠ d := by
            intro heq2
            have := hall doc (List.mem_cons_self doc rest) heq2
            rw [(recognizedB_iff doc).mpr (by tauto)] at this
            cases this
          refine hF7 d ?_ (fun doc2 hd2 => hall doc2 (List.mem_cons_of_mem doc hd2))
          rw [hregB]
          show List.lookup (some d) ((some doc.dataset_s, a0) :: reg.map) = none
          rw [lookup_cons_ne _ _ (by simpa using fun h => hne2 h.symm)]
          exact hd
      · by_cases hst2 : storeTypeOf doc = "zarr"
        · -- new zarr dataset: fresh binding appended to the heap
          obtain ⟨c, cs, hcfg⟩ : ∃ c cs, doc.config = some (c :: cs) := by
            have hcz := hz doc (List.mem_cons_self doc rest) hst2
            cases hc : doc.config with
            | none => rw [hc] at hcz; simp at hcz
            | some l =>
              cases l with
              | nil => rw [hc] at hcz; simp at hcz
              | cons c cs => exact ⟨c, cs, rfl⟩
          have hstep : updateInsert reg doc =
              .ok { heap := reg.heap ++ [{ backend := .zarr c, up := true }],
                    map := (some doc.dataset_s, reg.heap.length) :: reg.map } := by
            simp [updateInsert, hbound, hst, hst2, hcfg]
            rfl
          set regB : RegState :=
            { heap := reg.heap ++ [{ backend := .zarr c, up := true }],
              map := (some doc.dataset_s, reg.heap.length) :: reg.map } with hregB
          have hlenB : regB.heap.length = reg.heap.length + 1 := by
            rw [hregB]
            show (reg.heap ++ [({ backend := .zarr c, up := true } : Binding)]).length = _
            rw [List.length_append]
            rfl
          have hheapBpres : ∀ a, a < reg.heap.length → regB.heap[a]? = reg.heap[a]? := by
            intro a ha
            rw [hregB]
            show (reg.heap ++ [({ backend := .zarr c, up := true } : Binding)])[a]? = reg.heap[a]?
            rw [List.getElem?_append, if_pos ha]
          have hwfB : ∀ kv ∈ regB.map, kv.2 < regB.heap.length := by
            intro kv hkv
            rcases List.mem_cons.mp hkv with rfl | hkv2
            · rw [hlenB]; exact Nat.lt_succ_self _
            · rw [hlenB]; exact Nat.lt_succ_of_lt (hwf kv hkv2)
          have hnoneB : List.lookup (none : DKey) regB.map = some a0 := by
            rw [hregB]
            show List.lookup (none : DKey)
              ((some doc.dataset_s, reg.heap.length) :: reg.map) = some a0
            rw [lookup_cons_ne _ _ (by simp)]
            exact hnone
          have hheapB : regB.heap[a0]? = some b0 := by
            rw [hheapBpres a0 ha0lt]
            exact hheap
          obtain ⟨reg1, hF0, hF5, hF1, hF2, hF3, hF4, hF6, hF7⟩ :=
            ih regB a0 b0 hwfB hnoneB hheapB hup hzrest hndrest
          refine ⟨reg1, ?_, hF5, hF1, ?_, ?_, ?_, ?_, ?_⟩
          · rw [updateFold, hstep]
            exact hF0
          · intro k a hka
            have hkne : k ≠ some doc.dataset_s := by
              intro hkeq
              rw [hkeq, hnb] at hka
              cases hka
            apply hF2
            rw [hregB]
            show List.lookup k ((some doc.dataset_s, reg.heap.length) :: reg.map) = some a
            rw [lookup_cons_ne _ _ hkne]
            exact hka
          · intro a ha
            rw [← hheapBpres a ha]
            exact hF3 a (by rw [hlenB]; exact Nat.lt_succ_of_lt ha)
          · calc reg.heap.length ≤ regB.heap.length := by rw [hlenB]; exact Nat.le_succ _
              _ ≤ reg1.heap.length := hF4
          · intro doc2 hd2 hnew hrec
            rcases List.mem_cons.mp hd2 with rfl | hd3
            · refine ⟨reg.heap.length, { backend := .zarr c, up := true }, ?_, ?_, rfl⟩
              · apply hF2
                rw [hregB]
                exact lookup_cons_self _ _ _
              · rw [hF3 reg.heap.length (by rw [hlenB]; exact Nat.lt_succ_self _)]
                rw [hregB]
                show (reg.heap ++ [({ backend := .zarr c, up := true } : Binding)])[reg.heap.length]? = _
                rw [List.getElem?_concat_length]
            · have hne2 : doc2.dataset_s ≠ doc.dataset_s := by
                intro heq2
                apply hnotin
                show doc.dataset_s ∈ List.map (fun x => x.dataset_s) rest
                rw [← heq2]
                exact List.mem_map_of_mem _ hd3
              refine hF6 doc2 hd3 ?_ hrec
              rw [hregB]
              show List.lookup (some doc2.dataset_s)
                ((some doc.dataset_s, reg.heap.length) :: reg.map) = none
              rw [lookup_cons_ne _ _ (by simpa using hne2)]
              exact hnew
          · intro d hd hall
            have hne2 : doc.dataset_s ≠ d := by
              intro heq2
              have := hall doc (List.mem_cons_self doc rest) heq2
              rw [(recognizedB_iff doc).mpr (by tauto)] at this
              cases this
            refine hF7 d ?_ (fun doc2 hd2 => hall doc2 (List.mem_cons_of_mem doc hd2))
            rw [hregB]
            show List.lookup (some d)
              ((some doc.dataset_s, reg.heap.length) :: reg.map) = none
            rw [lookup_cons_ne _ _ (by simpa using fun h => hne2 h.symm)]
            exact hd
        · -- unsupported store type: logged and skipped
          have hstep : updateInsert reg doc = .ok reg := by
            simp [updateInsert, hbound, hst, hst2]
            rfl
          obtain ⟨reg1, hF0, hF5, hF1, hF2, hF3, hF4, hF6, hF7⟩ :=
            ih reg a0 b0 hwf hnone hheap hup hzrest hndrest
          refine ⟨reg1, ?_, hF5, hF1, hF2, hF3, hF4, ?_, ?_⟩
          · rw [updateFold, hstep]
            exact hF0
          · intro doc2 hd2 hnew hrec
            rcases List.mem_cons.mp hd2 with rfl | hd3
            · rw [recognizedB_iff doc2] at hrec
              rcases hrec with h1 | h2 | h3
              · exact absurd (Or.inl h1) hst
              · exact absurd (Or.inr h2) hst
              · exact absurd h3 hst2
            · exact hF6 doc2 hd3 hnew hrec
          · intro d hd hall
            exact hF7 d hd (fun doc2 hd2 => hall doc2 (List.mem_cons_of_mem doc hd2))

/-- Claim C3 (confirmed): a catalog-refresh cycle over the current catalog
docs succeeds (given the seeded default binding is present and live, zarr
docs carry a config, and dataset ids are not repeated), and: every listed
dataset not yet bound whose store type is recognized ends bound to a live
binding; a listed unbound dataset with an unrecognized store type is
skipped (stays unbound) without failing the cycle; every already-bound
dataset still listed keeps its binding object (same address, same heap
contents); and every bound dataset absent from the catalog is removed, so
the very next resolve for it raises DatasetNotFound. -/
theorem claim3_refresh_cycle (reg : RegState) (docs : List CatalogDoc) (a0 : Nat) (b0 : Binding)
    (hwf : WFReg reg)
    (hnone : List.lookup (none : DKey) reg.map = some a0)
    (hheap : reg.heap[a0]? = some b0)
    (hup : b0.up = true)
    (hz : ∀ doc ∈ docs, storeTypeOf doc = "zarr" → doc.config.getD [] ≠ [])
    (hnd : (presentOf docs).Nodup) :
    ∃ reg2, updateDatasets reg docs = .ok reg2 ∧
      (∀ doc ∈ docs, List.lookup (some doc.dataset_s) reg.map = none →
        recognizedB doc = true →
        ∃ a b, List.lookup (some doc.dataset_s) reg2.map = some a ∧
          reg2.heap[a]? = some b ∧ b.up = true) ∧
      (∀ doc ∈ docs, List.lookup (some doc.dataset_s) reg.map = none →
        recognizedB doc = false →
        List.lookup (some doc.dataset_s) reg2.map = none) ∧
      (∀ d a, List.lookup (some d) reg.map = some a → d ∈ presentOf docs →
        List.lookup (some d) reg2.map = some a ∧ reg2.heap[a]? = reg.heap[a]?) ∧
      (∀ d, (List.lookup (some d) reg.map).isSome = true → d ∉ presentOf docs →
        List.lookup (some d) reg2.map = none ∧
        ∀ tc, getBackend tc reg2 (some d) = .error (.datasetNotFound (some d))) := by
  obtain ⟨reg1, hF0, hF5, hF1, hF2, hF3, hF4, hF6, hF7⟩ :=
    updateFold_spec docs reg a0 b0 hwf hnone hheap hup hz hnd
  refine ⟨{ heap := reg1.heap,
            map := reg1.map.filter (fun kv => keepKey (presentOf docs) kv.1) },
          ?_, ?_, ?_, ?_, ?_⟩
  · unfold updateDatasets
    rw [hF0]
    rfl
  · intro doc hd hnew hrec
    obtain ⟨a, b, h1, h2, h3⟩ := hF6 doc hd hnew hrec
    refine ⟨a, b, ?_, h2, h3⟩
    show List.lookup (some doc.dataset_s)
      (reg1.map.filter (fun kv => keepKey (presentOf docs) kv.1)) = some a
    rw [lookup_filter_key]
    rw [if_pos (show keepKey (presentOf docs) (some doc.dataset_s) = true from
      List.elem_iff.mpr (List.mem_map_of_mem _ hd))]
    exact h1
  · intro doc hd hnew hrec
    show List.lookup (some doc.dataset_s)
      (reg1.map.filter (fun kv => keepKey (presentOf docs) kv.1)) = none
    rw [lookup_filter_key]
    have hlq : List.lookup (some doc.dataset_s) reg1.map = none := by
      apply hF7 doc.dataset_s hnew
      intro doc2 hd2 heq
      have hdd : doc2 = doc := List.inj_on_of_nodup_map hnd hd2 hd heq
      rw [hdd]
      exact hrec
    rw [hlq]
    exact ite_self none
  · intro d a hka hmem
    constructor
    · show List.lookup (some d)
        (reg1.map.filter (fun kv => keepKey (presentOf docs) kv.1)) = some a
      rw [lookup_filter_key]
      rw [if_pos (show keepKey (presentOf docs) (some d) = true from List.elem_iff.mpr hmem)]
      exact hF2 (some d) a hka
    · show reg1.heap[a]? = reg.heap[a]?
      exact hF3 a (hwf (some d, a) (mem_of_lookup hka))
  · intro d hsome hmem
    have h1 : List.lookup (some d)
        (reg1.map.filter (fun kv => keepKey (presentOf docs) kv.1)) = none := by
      rw [lookup_filter_key]
      rw [if_neg (show ¬ keepKey (presentOf docs) (some d) = true from
        fun hkk => hmem (List.elem_iff.mp hkk))]
    refine ⟨h1, ?_⟩
    intro tc
    simp [getBackend, getBackendT, h1]

theorem claim3_witness :
    (WFReg regW ∧ List.lookup (none : DKey) regW.map = some 0 ∧
     regW.heap[0]? = some seedBinding ∧ seedBinding.up = true ∧
     (∀ doc ∈ [docZ, docU, docAlias], storeTypeOf doc = "zarr" → doc.config.getD [] ≠ []) ∧
     (presentOf [docZ, docU, docAlias]).Nodup) ∧
    (∃ reg2, updateDatasets regW [docZ, docU, docAlias] = .ok reg2 ∧
      (∀ doc ∈ [docZ, docU, docAlias],
        List.lookup (some doc.dataset_s) regW.map = none →
        recognizedB doc = true →
        ∃ a b, List.lookup (some doc.dataset_s) reg2.map = some a ∧
          reg2.heap[a]? = some b ∧ b.up = true) ∧
      (∀ doc ∈ [docZ, docU, docAlias],
        List.lookup (some doc.dataset_s) regW.map = none →
        recognizedB doc = false →
        List.lookup (some doc.dataset_s) reg2.map = none) ∧
      (∀ d a, List.lookup (some d) regW.map = some a →
        d ∈ presentOf [docZ, docU, docAlias] →
        List.lookup (some d) reg2.map = some a ∧ reg2.heap[a]? = regW.heap[a]?) ∧
      (∀ d, (List.lookup (some d) regW.map).isSome = true →
        d ∉ presentOf [docZ, docU, docAlias] →
        List.lookup (some d) reg2.map = none ∧
        ∀ tc, getBackend tc reg2 (some d) = .error (.datasetNotFound (some d)))) :=
  ⟨⟨by decide, by decide, by decide, by decide, by decide, by decide⟩,
   claim3_refresh_cycle regW [docZ, docU, docAlias] 0 seedBinding
     (by decide) (by decide) (by decide) (by decide) (by decide) (by decide)⟩

/- ------------------------------------------------------------------ -/
/- Lemmas for claim C10: document-to-tile conversion. -/

theorem except_bind_ok {ε α β} (a : α) (f : α → Except ε β) :
    ((Except.ok a : Except ε α) >>= f) = f a := rfl

theorem except_bind_err {ε α β} (e : ε) (f : α → Except ε β) :
    ((Except.error e : Except ε α) >>= f) = .error e := rfl

theorem firstOf_ok {x : NumOrList} (h : firstOk x = true) : ∃ n, firstOf x = .ok n := by
  cases x with
  | num n => exact ⟨n, rfl⟩
  | lst l =>
    cases l with
    | nil => simp [firstOk] at h
    | cons n l2 => exact ⟨n, rfl⟩

theorem bboxOf_ok (doc : StoreDoc)
    (h1 : doc.tile_min_lat.all firstOk = true) (h2 : doc.tile_min_lon.all firstOk = true)
    (h3 : doc.tile_max_lat.all firstOk = true) (h4 : doc.tile_max_lon.all firstOk = true) :
    ∃ ob, bboxOf doc = .ok ob := by
  rcases hma : doc.tile_min_lat with _ | mla <;>
    rcases hmb : doc.tile_min_lon with _ | mlo <;>
      rcases hmc : doc.tile_max_lat with _ | mxa <;>
        rcases hmd : doc.tile_max_lon with _ | mxo <;>
          simp only [bboxOf, hma, hmb, hmc, hmd]
  all_goals try exact ⟨none, rfl⟩
  rw [hma, Option.all_some] at h1
  rw [hmb, Option.all_some] at h2
  rw [hmc, Option.all_some] at h3
  rw [hmd, Option.all_some] at h4
  obtain ⟨na, hna⟩ := firstOf_ok h1
  obtain ⟨nb, hnb⟩ := firstOf_ok h2
  obtain ⟨nc, hnc⟩ := firstOf_ok h3
  obtain ⟨nd, hnd⟩ := firstOf_ok h4
  refine ⟨some { min_lat := na, max_lat := nc, min_lon := nb, max_lon := nd }, ?_⟩
  rw [hna, except_bind_ok, hnb, except_bind_ok, hnc, except_bind_ok, hnd, except_bind_ok]

theorem timeOf_ok {v : Option String}
    (h : v.all (fun s => (parseSolrDate s).isSome) = true) :
    ∃ od, timeOf v = .ok od := by
  cases v with
  | none => exact ⟨none, rfl⟩
  | some s =>
    rw [Option.all_some] at h
    cases hp : parseSolrDate s with
    | none => rw [hp] at h; simp at h
    | some dt => exact ⟨some dt, by simp [timeOf, hp]⟩

theorem varNamesOf_ok (s : String) (h : jsonOk s = true) : ∃ l, varNamesOf s = .ok l := by
  unfold varNamesOf
  by_cases hb : strContains s '[' = true
  · rw [if_pos hb]
    rw [jsonOk, hb] at h
    simp only [Bool.not_true, Bool.false_or] at h
    cases hjl : jsonLoadsList s with
    | none => rw [hjl] at h; simp at h
    | some l => exact ⟨l, rfl⟩
  · rw [if_neg hb]
    exact ⟨[some s], rfl⟩

theorem standardNamesOf_ok (doc : StoreDoc) (n : Nat)
    (h : doc.tile_standard_name_s.all jsonOk = true) :
    ∃ l, standardNamesOf doc n = .ok l := by
  unfold standardNamesOf
  cases hsn : doc.tile_standard_name_s with
  | none => exact ⟨List.replicate n none, rfl⟩
  | some sn =>
    rw [hsn, Option.all_some] at h
    show ∃ l, (if strContains sn '[' then
        match jsonLoadsList sn with
        | none => (.error (.valueError sn) : Except NexusError (List (Option String)))
        | some l => .ok l
      else .ok [some sn]) = .ok l
    by_cases hb : strContains sn '[' = true
    · rw [if_pos hb]
      rw [jsonOk, hb] at h
      simp only [Bool.not_true, Bool.false_or] at h
      cases hjl : jsonLoadsList sn with
      | none => rw [hjl] at h; simp at h
      | some l => exact ⟨l, rfl⟩
    · rw [if_neg hb]
      exact ⟨[some sn], rfl⟩

theorem varsOf_ok (doc : StoreDoc)
    (h1 : doc.tile_var_name_s.all jsonOk = true)
    (h2 : doc.tile_standard_name_s.all jsonOk = true) :
    ∃ ov, varsOf doc = .ok ov := by
  cases hv : doc.tile_var_name_s with
  | none => exact ⟨none, by simp [varsOf, hv]⟩
  | some s =>
    rw [hv, Option.all_some] at h1
    obtain ⟨l, hl⟩ := varNamesOf_ok s h1
    obtain ⟨l2, hl2⟩ := standardNamesOf_ok doc l.length h2
    refine ⟨some (List.zipWith (fun v st => TileVariable.mk v st) l l2), ?_⟩
    simp only [varsOf, hv]
    rw [hl, except_bind_ok, hl2, except_bind_ok]

theorem docToTile_ok (doc : StoreDoc) (h : wellFormedDoc doc = true) :
    ∃ t, docToTile doc = .ok t := by
  unfold wellFormedDoc at h
  simp only [Bool.and_eq_true] at h
  obtain ⟨⟨⟨⟨⟨⟨⟨hmt, hxt⟩, hla⟩, hlo⟩, hxa⟩, hxo⟩, hvn⟩, hsn⟩ := h
  obtain ⟨ob, hob⟩ := bboxOf_ok doc hla hlo hxa hxo
  obtain ⟨omn, homn⟩ := timeOf_ok hmt
  obtain ⟨omx, homx⟩ := timeOf_ok hxt
  obtain ⟨ov, hov⟩ := varsOf_ok doc hvn hsn
  refine ⟨{ tile_id := doc.id, dataset := doc.dataset_s, dataset_id := doc.dataset_id_s,
            granule := doc.granule_s, bbox := ob, min_time := omn, max_time := omx,
            section_spec := doc.sectionSpec_s, tile_stats := statsOf doc,
            tile_variables := varsOverride doc ov }, ?_⟩
  unfold docToTile
  rw [hob, except_bind_ok, homn, except_bind_ok, homx, except_bind_ok, hov, except_bind_ok]

theorem docToTile_fields (doc : StoreDoc) (t : Tile) (h : docToTile doc = .ok t) :
    t.tile_id = doc.id ∧ t.dataset = doc.dataset_s ∧ t.dataset_id = doc.dataset_id_s ∧
    t.granule = doc.granule_s ∧ t.section_spec = doc.sectionSpec_s ∧
    t.tile_stats = statsOf doc ∧
    bboxOf doc = .ok t.bbox ∧
    timeOf doc.tile_min_time_dt = .ok t.min_time ∧
    timeOf doc.tile_max_time_dt = .ok t.max_time ∧
    (∃ v1, varsOf doc = .ok v1 ∧ t.tile_variables = varsOverride doc v1) ∧
    t.latitudes = none ∧ t.longitudes = none ∧ t.times = none ∧ t.tdata = none := by
  unfold docToTile at h
  cases hb : bboxOf doc with
  | error e => rw [hb, except_bind_err] at h; exact Except.noConfusion h
  | ok ob =>
    rw [hb, except_bind_ok] at h
    cases hmn : timeOf doc.tile_min_time_dt with
    | error e => rw [hmn, except_bind_err] at h; exact Except.noConfusion h
    | ok omn =>
      rw [hmn, except_bind_ok] at h
      cases hmx : timeOf doc.tile_max_time_dt with
      | error e => rw [hmx, except_bind_err] at h; exact Except.noConfusion h
      | ok omx =>
        rw [hmx, except_bind_ok] at h
        cases hv : varsOf doc with
        | error e => rw [hv, except_bind_err] at h; exact Except.noConfusion h
        | ok ov =>
          rw [hv, except_bind_ok] at h
          injection h with h2
          subst h2
          exact ⟨rfl, rfl, rfl, rfl, rfl, rfl, rfl, rfl, rfl,
                 ⟨ov, rfl, rfl⟩, rfl, rfl, rfl, rfl⟩

theorem docs_to_tiles_ok :
    ∀ (docs : List StoreDoc),
      (∀ doc ∈ docs, ∃ t, docToTile doc = .ok t) →
      ∃ tiles, metadata_store_docs_to_tiles docs = .ok tiles ∧
        tiles.length = docs.length ∧
        ∀ (i : Nat) (doc : StoreDoc), docs[i]? = some doc →
          ∃ t : Tile, tiles[i]? = some t ∧ docToTile doc = .ok t := by
  intro docs
  induction docs with
  | nil =>
    intro _
    refine ⟨[], rfl, rfl, ?_⟩
    intro i doc h
    simp at h
  | cons doc rest ih =>
    intro hall
    obtain ⟨t, ht⟩ := hall doc (List.mem_cons_self doc rest)
    obtain ⟨tiles, h1, h2, h3⟩ := ih (fun d hd => hall d (List.mem_cons_of_mem _ hd))
    refine ⟨t :: tiles, ?_, ?_, ?_⟩
    · rw [metadata_store_docs_to_tiles, ht, except_bind_ok, h1, except_bind_ok]
    · simp [h2]
    · intro i d hi
      cases i with
      | zero =>
        rw [List.getElem?_cons_zero] at hi
        injection hi with hi2
        subst hi2
        exact ⟨t, List.getElem?_cons_zero, ht⟩
      | succ n =>
        rw [List.getElem?_cons_succ] at hi
        obtain ⟨t2, ht2a, ht2b⟩ := h3 n d hi
        exact ⟨t2, by rw [List.getElem?_cons_succ]; exact ht2a, ht2b⟩

/-- Claim C10 counterexample: the conversion is not total over metadata
documents: only KeyError is caught, so a document whose present
tile_min_time_dt value does not parse as a calendar-valid solr date makes
_metadata_store_docs_to_tiles raise a ValueError instead of leaving the
field unset; both a non-date string and a well-shaped but calendar-invalid
date (February 30th) raise. -/
theorem claim10_counterexample :
    metadata_store_docs_to_tiles [badDateDoc] = .error (.valueError "garbage") ∧
    metadata_store_docs_to_tiles [feb30Doc] =
      .error (.valueError "2021-02-30T00:00:00Z") :=
  ⟨by decide, by decide⟩

/-- Claim C10 (corrected, amended): for documents whose present values are
well formed (timestamps parse in the solr format, bracketed variable-name
fields json-decode, list-valued bounding-box fields are nonempty) the
conversion is total and produces exactly one Tile per document in order;
each field is populated independently from its own keys (a missing key
leaves the field unset, a list-valued bounding-box field contributes its
first element, per the bboxOf/timeOf/statsOf/varsOf stage functions), and
the payload fields stay unset.  A document with a malformed present value
raises instead (see the counterexample). -/
theorem claim10_amended_doc_conversion (docs : List StoreDoc)
    (h : ∀ doc ∈ docs, wellFormedDoc doc = true) :
    ∃ tiles, metadata_store_docs_to_tiles docs = .ok tiles ∧
      tiles.length = docs.length ∧
      ∀ (i : Nat) (doc : StoreDoc), docs[i]? = some doc →
        ∃ t : Tile, tiles[i]? = some t ∧
          t.tile_id = doc.id ∧ t.dataset = doc.dataset_s ∧ t.dataset_id = doc.dataset_id_s ∧
          t.granule = doc.granule_s ∧ t.section_spec = doc.sectionSpec_s ∧
          t.tile_stats = statsOf doc ∧
          bboxOf doc = .ok t.bbox ∧
          timeOf doc.tile_min_time_dt = .ok t.min_time ∧
          timeOf doc.tile_max_time_dt = .ok t.max_time ∧
          (∃ v1, varsOf doc = .ok v1 ∧ t.tile_variables = varsOverride doc v1) ∧
          t.latitudes = none ∧ t.longitudes = none ∧ t.times = none ∧ t.tdata = none := by
  obtain ⟨tiles, h1, h2, h3⟩ :=
    docs_to_tiles_ok docs (fun doc hd => docToTile_ok doc (h doc hd))
  refine ⟨tiles, h1, h2, ?_⟩
  intro i doc hi
  obtain ⟨t, ht1, ht2⟩ := h3 i doc hi
  exact ⟨t, ht1, docToTile_fields doc t ht2⟩

theorem claim10_witness :
    (∀ doc ∈ [goodDoc, minimalDoc], wellFormedDoc doc = true) ∧
    (∃ tiles, metadata_store_docs_to_tiles [goodDoc, minimalDoc] = .ok tiles ∧
      tiles.length = ([goodDoc, minimalDoc] : List StoreDoc).length ∧
      ∀ (i : Nat) (doc : StoreDoc), ([goodDoc, minimalDoc] : List StoreDoc)[i]? = some doc →
        ∃ t : Tile, tiles[i]? = some t ∧
          t.tile_id = doc.id ∧ t.dataset = doc.dataset_s ∧ t.dataset_id = doc.dataset_id_s ∧
          t.granule = doc.granule_s ∧ t.section_spec = doc.sectionSpec_s ∧
          t.tile_stats = statsOf doc ∧
          bboxOf doc = .ok t.bbox ∧
          timeOf doc.tile_min_time_dt = .ok t.min_time ∧
          timeOf doc.tile_max_time_dt = .ok t.max_time ∧
          (∃ v1, varsOf doc = .ok v1 ∧ t.tile_variables = varsOverride doc v1) ∧
          t.latitudes = none ∧ t.longitudes = none ∧ t.times = none ∧ t.tdata = none) :=
  ⟨by decide, claim10_amended_doc_conversion [goodDoc, minimalDoc] (by decide)⟩

/- ------------------------------------------------------------------ -/
/- Lemmas for claim C6: masking and the bounded-query methods. -/

theorem zip4_proj (l : List Sample) :
    zip4 (l.map (fun s2 => s2.lat)) (l.map (fun s2 => s2.lon))
      (l.map (fun s2 => s2.time)) (l.map (fun s2 => s2.val)) = l := by
  induction l with
  | nil => rfl
  | cons a l ih =>
    show (⟨a.lat, a.lon, a.time, a.val⟩ : Sample) :: zip4 _ _ _ _ = a :: l
    rw [ih]

theorem tileSamples_setSamples (t : Tile) (l : List Sample) :
    tileSamples (setSamples t l) = l :=
  zip4_proj l

theorem maskTile_keep (keep : Sample → Bool) (t : Tile) :
    ∀ s2 ∈ tileSamples (maskTile keep t), keep s2 = true := by
  rcases hla : t.latitudes with _ | la <;>
    rcases hlo : t.longitudes with _ | lo <;>
      rcases hti : t.times with _ | ti <;>
        rcases hda : t.tdata with _ | da <;>
          simp only [maskTile, tileSamples, hla, hlo, hti, hda] <;>
          try simp
  intro s2 hs2
  simp only [setSamples] at hs2
  rw [zip4_proj] at hs2
  exact (List.mem_filter.mp hs2).2

theorem maskTile_sub (keep : Sample → Bool) (t : Tile) :
    ∀ s2 ∈ tileSamples (maskTile keep t), s2 ∈ tileSamples t := by
  rcases hla : t.latitudes with _ | la <;>
    rcases hlo : t.longitudes with _ | lo <;>
      rcases hti : t.times with _ | ti <;>
        rcases hda : t.tdata with _ | da <;>
          simp only [maskTile, tileSamples, hla, hlo, hti, hda] <;>
          try simp
  intro s2 hs2
  simp only [setSamples] at hs2
  rw [zip4_proj] at hs2
  exact (List.mem_filter.mp hs2).1

theorem maskTile_populated (keep : Sample → Bool) (t : Tile)
    (h : isPopulated t = true) : isPopulated (maskTile keep t) = true := by
  rcases hla : t.latitudes with _ | la <;>
    rcases hlo : t.longitudes with _ | lo <;>
      rcases hti : t.times with _ | ti <;>
        rcases hda : t.tdata with _ | da <;>
          simp_all [maskTile, setSamples, isPopulated, hla, hlo, hti, hda]

theorem mask_list_keep (keep : Sample → Bool) (l : List Tile) :
    ∀ t ∈ l.map (maskTile keep), ∀ s2 ∈ tileSamples t, keep s2 = true := by
  intro t ht
  rw [List.mem_map] at ht
  obtain ⟨t0, _, rfl⟩ := ht
  exact maskTile_keep keep t0

theorem mask_list_sub (keep : Sample → Bool) (l : List Tile) :
    ∀ t ∈ l.map (maskTile keep), ∃ t0 ∈ l, t = maskTile keep t0 := by
  intro t ht
  rw [List.mem_map] at ht
  obtain ⟨t0, ht0, rfl⟩ := ht
  exact ⟨t0, ht0, rfl⟩

theorem mask_list_populated (keep : Sample → Bool) (l : List Tile)
    (h : ∀ t ∈ l, isPopulated t = true) :
    ∀ t ∈ l.map (maskTile keep), isPopulated t = true := by
  intro t ht
  rw [List.mem_map] at ht
  obtain ⟨t0, ht0, rfl⟩ := ht
  exact maskTile_populated keep t0 (h t0 ht0)

theorem populateAll_populates :
    ∀ (ts : List Tile) (m : List (String × FetchedTile)) (out : List Tile),
      populateAll m ts = .ok out → ∀ t2 ∈ out, isPopulated t2 = true := by
  intro ts
  induction ts with
  | nil =>
    intro m out h t2 ht2
    injection h with h2
    subst h2
    cases ht2
  | cons t ts ih =>
    intro m out h t2 ht2
    cases hid : t.tile_id with
    | none =>
      simp only [populateAll, hid] at h
      exact Except.noConfusion h
    | some s =>
      cases hft : List.lookup s m with
      | none =>
        simp only [populateAll, hid, hft] at h
        exact Except.noConfusion h
      | some ft =>
        simp only [populateAll, hid, hft] at h
        cases hrest : populateAll (dictErase m s) ts with
        | error e => rw [hrest, except_bind_err] at h; exact Except.noConfusion h
        | ok rest =>
          rw [hrest, except_bind_ok] at h
          injection h with h2
          subst h2
          rcases List.mem_cons.mp ht2 with rfl | hmem
          · rfl
          · exact ih (dictErase m s) rest hrest t2 hmem

theorem fetch_populates (tiles : List Tile) (matched : List FetchedTile) (out : List Tile)
    (h : fetch_data_for_tiles tiles matched = .ok out) :
    ∀ t2 ∈ out, isPopulated t2 = true := by
  unfold fetch_data_for_tiles at h
  by_cases hany : (tiles.any fun t => (dictLookup (buildDict matched) t.tile_id).isNone) = true
  · rw [if_pos hany] at h
    exact Except.noConfusion h
  · rw [if_neg hany] at h
    exact populateAll_populates tiles (buildDict matched) out h

theorem tile_data_pipeline_populates (fetchKw : Option Bool) (mdDur cassDur : Nat)
    (cb : Option (Nat → Nat → Nat → Except NexusError Unit))
    (docs : List StoreDoc) (matched : List FetchedTile) (out : List Tile)
    (hf : fetchKw.getD true = true)
    (h : tile_data_pipeline true fetchKw mdDur cassDur cb docs matched = .ok out) :
    ∀ t2 ∈ out, isPopulated t2 = true := by
  unfold tile_data_pipeline at h
  cases h1 : metadata_store_docs_to_tiles docs with
  | error e =>
    rw [h1, except_bind_err] at h
    exact Except.noConfusion h
  | ok tiles =>
    rw [h1, except_bind_ok] at h
    simp only [hf, eq_self_iff_true, if_true, applyMetricsCallback_swallows] at h
    by_cases hl : tiles.length > 0
    · simp only [hl, if_true] at h
      simp only [bind_pure] at h
      exact fetch_populates tiles matched out h
    · simp only [hl, Bool.false_eq_true, if_false] at h
      have htn : tiles = [] := by
        cases tiles with
        | nil => rfl
        | cons a l => exact absurd (by simp) hl
      subst htn
      simp only [bind_pure] at h
      injection h with h2
      subst h2
      intro t2 ht2
      cases ht2

theorem poly_call_eq_box_call : @find_tiles_in_polygon_call = @find_tiles_in_box_call := rfl

theorem find_box_call_populates (tc : Backend → Bool) (reg : RegState) (ds : DKey)
    (fetchKw : Option Bool) (mdDur cassDur : Nat)
    (cb : Option (Nat → Nat → Nat → Except NexusError Unit))
    (docs : List StoreDoc) (matched : List FetchedTile) (tiles0 : List Tile)
    (hf : fetchKw.getD true = true)
    (h : find_tiles_in_box_call tc reg ds fetchKw mdDur cassDur cb docs matched = .ok tiles0) :
    ∀ t ∈ tiles0, isPopulated t = true := by
  unfold find_tiles_in_box_call at h
  cases hg : getBackend tc reg ds with
  | error e => rw [hg, except_bind_err] at h; exact Except.noConfusion h
  | ok b =>
    rw [hg, except_bind_ok] at h
    exact tile_data_pipeline_populates fetchKw mdDur cassDur cb docs matched tiles0 hf h

/-- Claim C6 counterexample: get_tiles_bounded_by_box forwards kwargs to
the decorated find call, so a call passing fetch_data := false returns
tiles whose payload is not populated, refuting the unconditional claim
that the returned tiles always have their payload populated. -/
theorem claim6_counterexample :
    get_tiles_bounded_by_box tcFalse seededState (-90) 90 (-180) 180 none 0 10 (some false)
      0 0 none [minimalDoc] [] = .ok [{ tile_id := some "A" }] ∧
    ({ tile_id := some "A" } : Tile).latitudes = none ∧
    isPopulated { tile_id := some "A" } = false :=
  ⟨by decide, rfl, rfl⟩

/-- Claim C6 (corrected, amended): when the underlying find call succeeds,
get_tiles_bounded_by_box (resp. get_tiles_bounded_by_polygon) returns the
found tiles masked to the box (resp. to the polygon), additionally masked
to the closed time range exactly when 0 <= start_time <= end_time; the
returned tiles have their payload populated provided the caller does not
pass fetch_data := false (the default fetches); every sample of every
returned tile lies inside the requested geometry, and inside the time
range when the time condition holds. -/
theorem claim6_amended_bounded_queries
    (tc : Backend → Bool) (reg : RegState) (ds : DKey)
    (minLat maxLat minLon maxLon startTime endTime : Int) (p : Polygon)
    (fetchKw : Option Bool) (mdDur cassDur : Nat)
    (cb : Option (Nat → Nat → Nat → Except NexusError Unit))
    (docs : List StoreDoc) (matched : List FetchedTile)
    (tiles0 tiles1 : List Tile)
    (hbox : find_tiles_in_box_call tc reg ds fetchKw mdDur cassDur cb docs matched = .ok tiles0)
    (hpoly : find_tiles_in_polygon_call tc reg ds fetchKw mdDur cassDur cb docs matched =
      .ok tiles1) :
    (get_tiles_bounded_by_box tc reg minLat maxLat minLon maxLon ds startTime endTime
        fetchKw mdDur cassDur cb docs matched =
      .ok (if 0 ≤ startTime ∧ startTime ≤ endTime then
             mask_tiles_to_time_range startTime endTime
               (mask_tiles_to_bbox minLat maxLat minLon maxLon tiles0)
           else mask_tiles_to_bbox minLat maxLat minLon maxLon tiles0)) ∧
    (get_tiles_bounded_by_polygon tc reg p ds startTime endTime
        fetchKw mdDur cassDur cb docs matched =
      .ok (if 0 ≤ startTime ∧ startTime ≤ endTime then
             mask_tiles_to_time_range startTime endTime (mask_tiles_to_polygon p tiles1)
           else mask_tiles_to_polygon p tiles1)) ∧
    (∀ out, get_tiles_bounded_by_box tc reg minLat maxLat minLon maxLon ds startTime endTime
        fetchKw mdDur cassDur cb docs matched = .ok out →
      (fetchKw.getD true = true → ∀ t ∈ out, isPopulated t = true) ∧
      (∀ t ∈ out, ∀ s2 ∈ tileSamples t,
        inBoxB minLat maxLat minLon maxLon s2 = true) ∧
      (0 ≤ startTime ∧ startTime ≤ endTime →
        ∀ t ∈ out, ∀ s2 ∈ tileSamples t, inTimeB startTime endTime s2 = true)) ∧
    (∀ out, get_tiles_bounded_by_polygon tc reg p ds startTime endTime
        fetchKw mdDur cassDur cb docs matched = .ok out →
      (fetchKw.getD true = true → ∀ t ∈ out, isPopulated t = true) ∧
      (∀ t ∈ out, ∀ s2 ∈ tileSamples t, p.containsF s2.lat s2.lon = true) ∧
      (0 ≤ startTime ∧ startTime ≤ endTime →
        ∀ t ∈ out, ∀ s2 ∈ tileSamples t, inTimeB startTime endTime s2 = true)) := by
  have hpoly2 : find_tiles_in_box_call tc reg ds fetchKw mdDur cassDur cb docs matched =
      .ok tiles1 := hpoly
  have hbox_eq : get_tiles_bounded_by_box tc reg minLat maxLat minLon maxLon ds
      startTime endTime fetchKw mdDur cassDur cb docs matched =
      .ok (if 0 ≤ startTime ∧ startTime ≤ endTime then
             mask_tiles_to_time_range startTime endTime
               (mask_tiles_to_bbox minLat maxLat minLon maxLon tiles0)
           else mask_tiles_to_bbox minLat maxLat minLon maxLon tiles0) := by
    unfold get_tiles_bounded_by_box
    rw [hbox, except_bind_ok]
    rfl
  have hpoly_eq : get_tiles_bounded_by_polygon tc reg p ds startTime endTime
      fetchKw mdDur cassDur cb docs matched =
      .ok (if 0 ≤ startTime ∧ startTime ≤ endTime then
             mask_tiles_to_time_range startTime endTime (mask_tiles_to_polygon p tiles1)
           else mask_tiles_to_polygon p tiles1) := by
    unfold get_tiles_bounded_by_polygon
    rw [hpoly, except_bind_ok]
    rfl
  refine ⟨hbox_eq, hpoly_eq, ?_, ?_⟩
  · intro out hout
    rw [hbox_eq] at hout
    injection hout with h2
    subst h2
    refine ⟨?_, ?_, ?_⟩
    · intro hf t ht
      have hpop0 := find_box_call_populates tc reg ds fetchKw mdDur cassDur cb docs matched
        tiles0 hf hbox
      by_cases hc : 0 ≤ startTime ∧ startTime ≤ endTime
      · rw [if_pos hc] at ht
        exact mask_list_populated (inTimeB startTime endTime)
          (mask_tiles_to_bbox minLat maxLat minLon maxLon tiles0)
          (mask_list_populated (inBoxB minLat maxLat minLon maxLon) tiles0 hpop0) t ht
      · rw [if_neg hc] at ht
        exact mask_list_populated (inBoxB minLat maxLat minLon maxLon) tiles0 hpop0 t ht
    · intro t ht s2 hs2
      by_cases hc : 0 ≤ startTime ∧ startTime ≤ endTime
      · rw [if_pos hc] at ht
        obtain ⟨t0, ht0, rfl⟩ := mask_list_sub (inTimeB startTime endTime)
          (mask_tiles_to_bbox minLat maxLat minLon maxLon tiles0) t ht
        exact mask_list_keep (inBoxB minLat maxLat minLon maxLon) tiles0 t0 ht0 s2
          (maskTile_sub (inTimeB startTime endTime) t0 s2 hs2)
      · rw [if_neg hc] at ht
        exact mask_list_keep (inBoxB minLat maxLat minLon maxLon) tiles0 t ht s2 hs2
    · intro hc t ht s2 hs2
      rw [if_pos hc] at ht
      obtain ⟨t0, ht0, rfl⟩ := mask_list_sub (inTimeB startTime endTime)
        (mask_tiles_to_bbox minLat maxLat minLon maxLon tiles0) t ht
      exact maskTile_keep (inTimeB startTime endTime) t0 s2 hs2
  · intro out hout
    rw [hpoly_eq] at hout
    injection hout with h2
    subst h2
    refine ⟨?_, ?_, ?_⟩
    · intro hf t ht
      have hpop0 := find_box_call_populates tc reg ds fetchKw mdDur cassDur cb docs matched
        tiles1 hf hpoly2
      by_cases hc : 0 ≤ startTime ∧ startTime ≤ endTime
      · rw [if_pos hc] at ht
        exact mask_list_populated (inTimeB startTime endTime)
          (mask_tiles_to_polygon p tiles1)
          (mask_list_populated (fun s2 => p.containsF s2.lat s2.lon) tiles1 hpop0) t ht
      · rw [if_neg hc] at ht
        exact mask_list_populated (fun s2 => p.containsF s2.lat s2.lon) tiles1 hpop0 t ht
    · intro t ht s2 hs2
      by_cases hc : 0 ≤ startTime ∧ startTime ≤ endTime
      · rw [if_pos hc] at ht
        obtain ⟨t0, ht0, rfl⟩ := mask_list_sub (inTimeB startTime endTime)
          (mask_tiles_to_polygon p tiles1) t ht
        exact mask_list_keep (fun s2 => p.containsF s2.lat s2.lon) tiles1 t0 ht0 s2
          (maskTile_sub (inTimeB startTime endTime) t0 s2 hs2)
      · rw [if_neg hc] at ht
        exact mask_list_keep (fun s2 => p.containsF s2.lat s2.lon) tiles1 t ht s2 hs2
    · intro hc t ht s2 hs2
      rw [if_pos hc] at ht
      obtain ⟨t0, ht0, rfl⟩ := mask_list_sub (inTimeB startTime endTime)
        (mask_tiles_to_polygon p tiles1) t ht
      exact maskTile_keep (inTimeB startTime endTime) t0 s2 hs2

theorem claim6_witness :
    (find_tiles_in_box_call tcFalse seededState none none 0 0 none [goodDoc] [ftG] =
       .ok tilesG ∧
     find_tiles_in_polygon_call tcFalse seededState none none 0 0 none [goodDoc] [ftG] =
       .ok tilesG) ∧
    get_tiles_bounded_by_box tcFalse seededState (-90) 90 (-180) 180 none 0 10 none 0 0 none
        [goodDoc] [ftG] =
      .ok (if (0 : Int) ≤ 0 ∧ (0 : Int) ≤ 10 then
             mask_tiles_to_time_range 0 10 (mask_tiles_to_bbox (-90) 90 (-180) 180 tilesG)
           else mask_tiles_to_bbox (-90) 90 (-180) 180 tilesG) :=
  ⟨⟨rfl, rfl⟩,
   (claim6_amended_bounded_queries tcFalse seededState none (-90) 90 (-180) 180 0 10 polyAll
      none 0 0 none [goodDoc] [ftG] tilesG tilesG rfl rfl).1⟩

end Sdap
